import Mathlib

/-!
# ESP32 weather station: relay, supervisor, sampler and bus protocol

A shallow embedding of the firmware's three tasks (`http.c`, `wifi.c`, `bme.c`) and of the
I2C transaction helpers, followed by theorems about them.

Conventions of the embedding:

* C `char` / `uint8_t` values are natural numbers; a buffer is a list of them.
* Calls into the ESP-IDF, FreeRTOS and libc are not part of the repository.  Every such call
  appends an event to a trace, and whatever the call returns is supplied from outside
  (a parameter or an oracle), so theorems quantify over all possible return values.
* `ESP_LOG*` output has no effect on the program state; it appears in a trace as a log event
  without its text.
* Behaviour that C leaves undefined (copying past the end of a buffer, overflow of `int`
  arithmetic) is `none`.
-/

namespace WeatherStation

/-! ## Telemetry relay (`http.h`, `http.c`) -/

/-- The enumeration `http_data_en` of `http.h`. -/
inductive http_data_en where
  | HTTP_DATA_OK
  | HTTP_DATA_PENDING
deriving DecidableEq, Repr

open http_data_en

/-- The macro `#define HTTP_FIELD_SIZE (256)`. -/
def HTTP_FIELD_SIZE : Nat := 256

/-- The macro `#define HTTP_POLL_PERIOD_MS (5000)`. -/
def HTTP_POLL_PERIOD_MS : Nat := 5000

/-- The constant `ESP_OK` of the ESP-IDF (`esp_err.h`). -/
def ESP_OK : Int := 0

/-- The file-scope variables of `http.c`: `http_data_flag`, `field[HTTP_FIELD_SIZE]` and
`field_len`. -/
structure Relay where
  http_data_flag : http_data_en
  field : List Nat
  field_len : Nat
deriving DecidableEq, Repr

/-- The values of the statics when the program starts: the flag is initialised to
`HTTP_DATA_OK`, the buffer and its length are zero-initialised. -/
def Relay.initial : Relay :=
  { http_data_flag := HTTP_DATA_OK, field := List.replicate HTTP_FIELD_SIZE 0, field_len := 0 }

/-- The libc call `memcpy(dst, src, n)` on buffers: the first `n` bytes of `dst` are replaced by
the first `n` bytes of `src`.  Reading or writing past the end of a buffer is undefined. -/
def memcpy (dst src : List Nat) (n : Nat) : Option (List Nat) :=
  if n ≤ src.length ∧ n ≤ dst.length then some (src.take n ++ dst.drop n) else none

/-- The function `http_send(data, data_len)` of `http.c`: the returned code together with the
new values of the statics. -/
def http_send (s : Relay) (data : List Nat) (data_len : Nat) : Option (http_data_en × Relay) :=
  if s.http_data_flag = HTTP_DATA_PENDING then
    some (HTTP_DATA_PENDING, s)
  else
    match memcpy s.field data data_len with
    | none => none
    | some f =>
      some (HTTP_DATA_OK,
        { http_data_flag := HTTP_DATA_PENDING, field := f, field_len := data_len })

/-- What one iteration of the `while (1)` loop of `http_task` does, in program order: the calls
into the HTTP client, the store to the shared flag and the poll delay. -/
inductive HttpEv where
  | client_init
  | set_method_post
  | set_header (key value : String)
  | set_post_field (data : List Nat) (len : Nat)
  | perform (ret : Int)
  | log_status
  | log_error (err : Int)
  | cleanup (ret : Int)
  | store_flag (v : http_data_en)
  | vTaskDelay (ticks : Nat)
deriving DecidableEq, Repr

/-- One iteration of the `while (1)` loop of `http_task`.  `perform_ret` and `cleanup_ret` are
what `esp_http_client_perform` and `esp_http_client_cleanup` return, `tick` is
`portTICK_PERIOD_MS`. -/
def http_task (perform_ret cleanup_ret : Int) (tick : Nat) (s : Relay) : Relay × List HttpEv :=
  if s.http_data_flag = HTTP_DATA_PENDING then
    let t1 := [HttpEv.client_init, HttpEv.set_method_post,
      HttpEv.set_header "Content-Type" "text/plain",
      HttpEv.set_post_field s.field s.field_len,
      HttpEv.perform perform_ret]
    let t2 := if perform_ret = ESP_OK then t1 ++ [HttpEv.log_status]
      else t1 ++ [HttpEv.log_error perform_ret]
    let t3 := t2 ++ [HttpEv.cleanup cleanup_ret]
    let t4 := if cleanup_ret ≠ ESP_OK then t3 ++ [HttpEv.log_error cleanup_ret] else t3
    ({ s with http_data_flag := HTTP_DATA_OK }, t4 ++ [HttpEv.store_flag HTTP_DATA_OK])
  else
    (s, [HttpEv.vTaskDelay (HTTP_POLL_PERIOD_MS / tick)])

/-- The bodies of the POST requests a trace performs: each `perform` sends the first `len`
bytes of the buffer last given to `set_post_field` (`cur`). -/
def posted : Option (List Nat) → List HttpEv → List (List Nat)
  | _, [] => []
  | _, HttpEv.set_post_field d n :: t => posted (some (d.take n)) t
  | none, HttpEv.perform _ :: t => [] :: posted none t
  | some b, HttpEv.perform _ :: t => b :: posted (some b) t
  | _, HttpEv.client_init :: t => posted none t
  | cur, _ :: t => posted cur t

/-- The values stored to `http_data_flag` by a trace, in order. -/
def flag_stores : List HttpEv → List http_data_en
  | [] => []
  | HttpEv.store_flag v :: t => v :: flag_stores t
  | _ :: t => flag_stores t

/-- Whether a trace event is a delivery attempt (`esp_http_client_perform`). -/
def HttpEv.isPerform : HttpEv → Bool
  | HttpEv.perform _ => true
  | _ => false

/-- Rejected submissions in a row: `http_send` is called with each payload of the list while
the state is the one left by the call before. -/
def http_send_all (s : Relay) : List (List Nat × Nat) → Option Relay
  | [] => some s
  | (d, n) :: rest =>
    match http_send s d n with
    | none => none
    | some (_, s1) => http_send_all s1 rest

/-! ## Network supervisor (`wifi.h`, `wifi.c`) -/

/-- The macro `#define WIFI_CHECK_CONNECTION_PERIOD_MS (10000)`. -/
def WIFI_CHECK_CONNECTION_PERIOD_MS : Nat := 10000

/-- The macro `#define WIFI_CONNECTED_BIT (BIT0)`. -/
def WIFI_CONNECTED_BIT : Nat := 1

/-- The macro `#define WIFI_FAIL_BIT (BIT1)`. -/
def WIFI_FAIL_BIT : Nat := 2

/-- The macro `#define WIFI_MAX_RECONNECTIONS (10)`. -/
def WIFI_MAX_RECONNECTIONS : Nat := 10

/-- The event bases the handler tells apart; every other base is `OTHER`. -/
inductive esp_event_base_t where
  | WIFI_EVENT
  | IP_EVENT
  | OTHER (n : Nat)
deriving DecidableEq, Repr

open esp_event_base_t

/-- The constant `WIFI_EVENT_STA_START` of the ESP-IDF enumeration `wifi_event_t`. -/
def WIFI_EVENT_STA_START : Int := 2

/-- The constant `WIFI_EVENT_STA_DISCONNECTED` of the ESP-IDF enumeration `wifi_event_t`. -/
def WIFI_EVENT_STA_DISCONNECTED : Int := 5

/-- The constant `IP_EVENT_STA_GOT_IP` of the ESP-IDF enumeration `ip_event_t`. -/
def IP_EVENT_STA_GOT_IP : Int := 0

/-- The calls `wifi.c` makes into the ESP-IDF and FreeRTOS once the supervisor runs. -/
inductive WifiEv where
  | esp_wifi_connect (ret : Int)
  | log_error (err : Int)
  | log_info
  | xEventGroupSetBits (bits : Nat)
  | xEventGroupClearBits (bits : Nat)
  | esp_event_post (base : esp_event_base_t) (id : Int) (ret : Int)
deriving DecidableEq, Repr

/-- The statics of `wifi.c`: `wifi_reconnect_counter` (a `uint8_t`) and the bits of the event
group `wifi_event_group`. -/
structure Wifi where
  wifi_reconnect_counter : Nat
  event_bits : Nat
deriving DecidableEq, Repr

/-- The statics when `wifi_task` has created the event group: counter zero, no bit set. -/
def Wifi.initial : Wifi := { wifi_reconnect_counter := 0, event_bits := 0 }

/-- The function `wifi_event_handler(arg, event_base, event_id, event_data)` of `wifi.c`:
the new statics and the calls made.  `connect_ret` is what `esp_wifi_connect` returns when
the handler calls it. -/
def wifi_event_handler (connect_ret : Int) (event_base : esp_event_base_t) (event_id : Int)
    (s : Wifi) : Wifi × List WifiEv :=
  if event_base = WIFI_EVENT ∧ event_id = WIFI_EVENT_STA_START then
    (s, if connect_ret ≠ ESP_OK
        then [WifiEv.esp_wifi_connect connect_ret, WifiEv.log_error connect_ret]
        else [WifiEv.esp_wifi_connect connect_ret])
  else if event_base = WIFI_EVENT ∧ event_id = WIFI_EVENT_STA_DISCONNECTED then
    if s.wifi_reconnect_counter < WIFI_MAX_RECONNECTIONS then
      ({ s with wifi_reconnect_counter := (s.wifi_reconnect_counter + 1) % 256 },
        if connect_ret ≠ ESP_OK
        then [WifiEv.log_info, WifiEv.esp_wifi_connect connect_ret, WifiEv.log_error connect_ret]
        else [WifiEv.log_info, WifiEv.esp_wifi_connect connect_ret])
    else
      ({ s with event_bits := s.event_bits ||| WIFI_FAIL_BIT },
        [WifiEv.xEventGroupSetBits WIFI_FAIL_BIT])
  else if event_base = IP_EVENT ∧ event_id = IP_EVENT_STA_GOT_IP then
    ({ wifi_reconnect_counter := 0, event_bits := s.event_bits ||| WIFI_CONNECTED_BIT },
      [WifiEv.log_info, WifiEv.xEventGroupSetBits WIFI_CONNECTED_BIT])
  else
    (s, [])

/-- The function `wifi_check_connection()` of `wifi.c` from the moment `xEventGroupWaitBits`
returns: it logs which bit it saw and clears both bits. -/
def wifi_check_connection (s : Wifi) : Wifi × List WifiEv :=
  ({ s with event_bits :=
      s.event_bits ^^^ (s.event_bits &&& (WIFI_CONNECTED_BIT ||| WIFI_FAIL_BIT)) },
    [if s.event_bits &&& WIFI_CONNECTED_BIT ≠ 0 then WifiEv.log_info
      else if s.event_bits &&& WIFI_FAIL_BIT ≠ 0 then WifiEv.log_info
      else WifiEv.log_error 0,
     WifiEv.xEventGroupClearBits (WIFI_CONNECTED_BIT ||| WIFI_FAIL_BIT)])

/-- The re-arm check at the head of the `while(1)` loop of `wifi_task`: when the counter
equals `WIFI_MAX_RECONNECTIONS` it is reset and a `WIFI_EVENT_STA_DISCONNECTED` event is
posted to the event loop (`post_ret` is what `esp_event_post` returns).  The call of
`wifi_check_connection` that follows is a step of its own. -/
def wifi_task_rearm (post_ret : Int) (s : Wifi) : Wifi × List WifiEv :=
  if s.wifi_reconnect_counter = WIFI_MAX_RECONNECTIONS then
    ({ s with wifi_reconnect_counter := 0 },
      [WifiEv.esp_event_post WIFI_EVENT WIFI_EVENT_STA_DISCONNECTED post_ret])
  else
    (s, [])

/-- The atomic steps of the supervisor: the event loop handing an event to
`wifi_event_handler`, the re-arm check of `wifi_task`, and `wifi_check_connection`
returning. -/
inductive WifiStep where
  | event (event_base : esp_event_base_t) (event_id : Int) (connect_ret : Int)
  | rearm (post_ret : Int)
  | check_connection
deriving DecidableEq, Repr

/-- One supervisor step. -/
def wifi_step (s : Wifi) : WifiStep → Wifi × List WifiEv
  | WifiStep.event b i r => wifi_event_handler r b i s
  | WifiStep.rearm r => wifi_task_rearm r s
  | WifiStep.check_connection => wifi_check_connection s

/-- A finite sequence of supervisor steps: the state reached and all calls made. -/
def wifi_run (s : Wifi) : List WifiStep → Wifi × List WifiEv
  | [] => (s, [])
  | st :: rest =>
    ((wifi_run (wifi_step s st).1 rest).1, (wifi_step s st).2 ++ (wifi_run (wifi_step s st).1 rest).2)

/-- The steps of `n` disconnect events handled one after the other, `rets` giving what
`esp_wifi_connect` returns in each. -/
def disconnects (rets : List Int) : List WifiStep :=
  rets.map (fun r => WifiStep.event WIFI_EVENT WIFI_EVENT_STA_DISCONNECTED r)

/-- Whether a call is a connection attempt. -/
def WifiEv.isConnect : WifiEv → Bool
  | WifiEv.esp_wifi_connect _ => true
  | _ => false

/-! ## Bus transactions (`i2c.h`, `bme.h`, `bme.c`) -/

/-- The constant `BME280_OK` of the sensor library (`bme280_defs.h`). -/
def BME280_OK : Int := 0

/-- The macro `#define BME280_FAIL (-7)`. -/
def BME280_FAIL : Int := -7

/-- The macro `#define I2C_PORT (I2C_NUM_0)`. -/
def I2C_PORT : Nat := 0

/-- The macro `#define I2C_WAIT_MS (10)`. -/
def I2C_WAIT_MS : Nat := 10

/-- The constant `I2C_MASTER_WRITE` of the ESP-IDF enumeration `i2c_rw_t`. -/
def I2C_MASTER_WRITE : Nat := 0

/-- The constant `I2C_MASTER_READ` of the ESP-IDF enumeration `i2c_rw_t`. -/
def I2C_MASTER_READ : Nat := 1

/-- The constant `I2C_MASTER_ACK` of the ESP-IDF enumeration `i2c_ack_type_t`. -/
def I2C_MASTER_ACK : Nat := 0

/-- The constant `I2C_MASTER_NACK` of the ESP-IDF enumeration `i2c_ack_type_t`. -/
def I2C_MASTER_NACK : Nat := 1

/-- The bus primitives of the I2C driver that return an `esp_err_t`, with their arguments
(the command link apart).  A read names its destination by its offset from `reg_data`. -/
inductive I2cCmd where
  | i2c_master_start
  | i2c_master_write_byte (data : Nat) (ack_en : Nat)
  | i2c_master_write (data : List Nat) (data_len : Nat) (ack_en : Nat)
  | i2c_master_read (offset : Int) (data_len : Nat) (ack : Nat)
  | i2c_master_read_byte (offset : Int) (ack : Nat)
  | i2c_master_stop
  | i2c_master_cmd_begin (port : Nat) (ticks : Nat)
deriving DecidableEq, Repr

/-- The driver calls of a transaction, in program order; a primitive carries what it
returned. -/
inductive I2cEv where
  | i2c_cmd_link_create
  | call (c : I2cCmd) (ret : Int)
  | i2c_cmd_link_delete
deriving DecidableEq, Repr

/-- The driver as the code sees it: what a primitive returns, given the calls made before. -/
abbrev I2cDriver := List I2cEv → I2cCmd → Int

/-- The pattern `esp_err = f(...); if (esp_err != ESP_OK) { ESP_LOGE(...); return
BME280_FAIL; }` of `bme.c`: the call is appended to the trace; an error leaves the function
(`Except.error`) with the trace so far. -/
def i2c_call (drv : I2cDriver) (c : I2cCmd) (t : List I2cEv) :
    Except (List I2cEv) (List I2cEv) :=
  if drv t c ≠ ESP_OK then Except.error (t ++ [I2cEv.call c (drv t c)])
  else Except.ok (t ++ [I2cEv.call c (drv t c)])

/-- The return value and the trace of a transaction function from its body. -/
def i2c_result : Except (List I2cEv) (List I2cEv) → Int × List I2cEv
  | Except.ok t => (BME280_OK, t)
  | Except.error t => (BME280_FAIL, t)

/-- The function `bme_read(reg_addr, reg_data, len, intf_ptr)` of `bme.c`: the returned code
and the driver calls made.  `addr` is the byte `intf_ptr` points to, `tick` is
`portTICK_PERIOD_MS`.  The address byte is an `int` expression narrowed to the `uint8_t`
parameter of `i2c_master_write_byte`. -/
def bme_read (drv : I2cDriver) (tick : Nat) (reg_addr : Nat) (len : Nat) (addr : Nat) :
    Int × List I2cEv :=
  i2c_result (do
    let t ← i2c_call drv I2cCmd.i2c_master_start [I2cEv.i2c_cmd_link_create]
    let t ← i2c_call drv
      (I2cCmd.i2c_master_write_byte (((addr <<< 1) ||| I2C_MASTER_WRITE) % 256) 1) t
    let t ← i2c_call drv (I2cCmd.i2c_master_write_byte reg_addr 1) t
    let t ← i2c_call drv I2cCmd.i2c_master_start t
    let t ← i2c_call drv
      (I2cCmd.i2c_master_write_byte (((addr <<< 1) ||| I2C_MASTER_READ) % 256) 1) t
    let t ← if len > 1 then
        i2c_call drv (I2cCmd.i2c_master_read 0 (len - 1) I2C_MASTER_ACK) t
      else pure t
    let t ← i2c_call drv (I2cCmd.i2c_master_read_byte ((len : Int) - 1) I2C_MASTER_NACK) t
    let t ← i2c_call drv I2cCmd.i2c_master_stop t
    let t ← i2c_call drv (I2cCmd.i2c_master_cmd_begin I2C_PORT (I2C_WAIT_MS / tick)) t
    pure (t ++ [I2cEv.i2c_cmd_link_delete]))

/-- The function `bme_write(reg_addr, reg_data, len, intf_ptr)` of `bme.c`. -/
def bme_write (drv : I2cDriver) (tick : Nat) (reg_addr : Nat) (reg_data : List Nat) (len : Nat)
    (addr : Nat) : Int × List I2cEv :=
  i2c_result (do
    let t ← i2c_call drv I2cCmd.i2c_master_start [I2cEv.i2c_cmd_link_create]
    let t ← i2c_call drv
      (I2cCmd.i2c_master_write_byte (((addr <<< 1) ||| I2C_MASTER_WRITE) % 256) 1) t
    let t ← i2c_call drv (I2cCmd.i2c_master_write_byte reg_addr 1) t
    let t ← i2c_call drv (I2cCmd.i2c_master_write reg_data len 1) t
    let t ← i2c_call drv I2cCmd.i2c_master_stop t
    let t ← i2c_call drv (I2cCmd.i2c_master_cmd_begin I2C_PORT (I2C_WAIT_MS / tick)) t
    pure (t ++ [I2cEv.i2c_cmd_link_delete]))

/-- The primitives `bme_read` issues when none fails, in order. -/
def bme_read_cmds (tick reg_addr len addr : Nat) : List I2cCmd :=
  [I2cCmd.i2c_master_start,
    I2cCmd.i2c_master_write_byte (((addr <<< 1) ||| I2C_MASTER_WRITE) % 256) 1,
    I2cCmd.i2c_master_write_byte reg_addr 1,
    I2cCmd.i2c_master_start,
    I2cCmd.i2c_master_write_byte (((addr <<< 1) ||| I2C_MASTER_READ) % 256) 1]
  ++ (if len > 1 then [I2cCmd.i2c_master_read 0 (len - 1) I2C_MASTER_ACK] else [])
  ++ [I2cCmd.i2c_master_read_byte ((len : Int) - 1) I2C_MASTER_NACK,
    I2cCmd.i2c_master_stop,
    I2cCmd.i2c_master_cmd_begin I2C_PORT (I2C_WAIT_MS / tick)]

/-- The primitives `bme_write` issues when none fails, in order. -/
def bme_write_cmds (tick reg_addr : Nat) (reg_data : List Nat) (len addr : Nat) : List I2cCmd :=
  [I2cCmd.i2c_master_start,
    I2cCmd.i2c_master_write_byte (((addr <<< 1) ||| I2C_MASTER_WRITE) % 256) 1,
    I2cCmd.i2c_master_write_byte reg_addr 1,
    I2cCmd.i2c_master_write reg_data len 1,
    I2cCmd.i2c_master_stop,
    I2cCmd.i2c_master_cmd_begin I2C_PORT (I2C_WAIT_MS / tick)]

/-- Primitives issued one after the other, each checked as in `i2c_call`. -/
def i2c_calls (drv : I2cDriver) : List I2cCmd → List I2cEv → Except (List I2cEv) (List I2cEv)
  | [], t => Except.ok t
  | c :: cs, t =>
    match i2c_call drv c t with
    | Except.ok t1 => i2c_calls drv cs t1
    | Except.error t1 => Except.error t1

/-- The primitives of a trace with what each returned. -/
def primitives : List I2cEv → List (I2cCmd × Int)
  | [] => []
  | I2cEv.call c e :: t => (c, e) :: primitives t
  | _ :: t => primitives t

/-- The number of bytes a primitive asks the device for. -/
def I2cCmd.bytes_read : I2cCmd → Nat
  | I2cCmd.i2c_master_read _ n _ => n
  | I2cCmd.i2c_master_read_byte _ _ => 1
  | _ => 0

/-- A driver whose primitives all return `ESP_OK`. -/
def drv_ok : I2cDriver := fun _ _ => ESP_OK

/-- A driver whose `n`-th call (counting the link creation as call 0) returns `ESP_FAIL`
(-1) and whose other calls return `ESP_OK`. -/
def drv_fail_at (n : Nat) : I2cDriver := fun t _ => if t.length = n then -1 else ESP_OK

/-- All-or-nothing for the result (returned code, trace) of a transaction function: the code is
`BME280_OK` exactly when every primitive in the trace returned `ESP_OK`, and is `BME280_FAIL`
otherwise; a primitive that returned an error is the last call of the trace; and a transaction
that was executed (`i2c_master_cmd_begin`) was queued without error. -/
def all_or_nothing (r : Int × List I2cEv) : Prop :=
  (r.1 = BME280_OK ↔ ∀ p ∈ primitives r.2, p.2 = ESP_OK) ∧
  (r.1 = BME280_OK ∨ r.1 = BME280_FAIL) ∧
  (∀ (pre post : List I2cEv) (c : I2cCmd) (e : Int),
    r.2 = pre ++ I2cEv.call c e :: post → e ≠ ESP_OK → r.1 = BME280_FAIL ∧ post = []) ∧
  (∀ (pre post : List I2cEv) (port ticks : Nat) (e : Int),
    r.2 = pre ++ I2cEv.call (I2cCmd.i2c_master_cmd_begin port ticks) e :: post →
    ∀ p ∈ primitives pre, p.2 = ESP_OK)

/-! ## Sensor task (`bme.h`, `bme.c`) -/

/-- The macro `#define BME_SAMPLING_PERIOD_MS (10000)`. -/
def BME_SAMPLING_PERIOD_MS : Int := 10000

/-- The macro `#define BME_HTTP_SEND_RETRIES (5)`. -/
def BME_HTTP_SEND_RETRIES : Nat := 5

/-- The macro `#define BME_HTTP_SEND_RETRY_WAIT_MS (100)`. -/
def BME_HTTP_SEND_RETRY_WAIT_MS : Int := 100

/-- The conversion of an `int` value to `uint32_t`. -/
def to_uint32 (x : Int) : Nat := (x % 4294967296).toNat

/-- The function `bme_delay(period, intf_ptr)` of `bme.c`: the number of ticks it passes to
`vTaskDelay`, `tick` being `portTICK_PERIOD_MS`. -/
def bme_delay (tick : Nat) (period : Nat) : Nat := period / 1000 / tick

/-- The libc call `strlen` on a buffer: the number of bytes before the first zero byte. -/
def strlen : List Nat → Nat
  | [] => 0
  | c :: cs => if c = 0 then 0 else strlen cs + 1

/-- The constant `INT_MIN` of a 32-bit `int`. -/
def INT_MIN : Int := -2147483648

/-- The constant `INT_MAX` of a 32-bit `int`. -/
def INT_MAX : Int := 2147483647

/-- Whether a value is representable as an `int`. -/
def int_fits (x : Int) : Bool := decide (INT_MIN ≤ x ∧ x ≤ INT_MAX)

/-- The argument `(P - i*W) * 1000` of the pacing delay that ends a cycle of `bme_task`, an
`int` expression passed as the `uint32_t period` of `bme.delay_us`; `P` and `W` stand for
`BME_SAMPLING_PERIOD_MS` and `BME_HTTP_SEND_RETRY_WAIT_MS`, `i` is the loop counter.  The
operands are `int` values and the product `i*W`, the difference and the product by 1000 are
computed in `int`: when one of them is not representable the behaviour is undefined (`none`).
Otherwise the `int` result, negative or not, is converted to `uint32_t`. -/
def cycle_delay_us (P W i : Int) : Option Nat :=
  if int_fits P = true ∧ int_fits W = true ∧ int_fits i = true ∧ int_fits (i * W) = true ∧
      int_fits (P - i * W) = true ∧ int_fits ((P - i * W) * 1000) = true
  then some (to_uint32 ((P - i * W) * 1000))
  else none

/-- What a cycle of the `while (1)` loop of `bme_task` does, in program order.  `delay_us` is a
call of `bme.delay_us`, that is of `bme_delay`, with its argument in microseconds; `http_send`
carries the code the call returned. -/
inductive BmeEv where
  | bme280_set_sensor_mode (ret : Int)
  | delay_us (period : Nat)
  | bme280_get_sensor_data (ret : Int)
  | log_error
  | sprintf (data : List Nat)
  | http_send (data : List Nat) (data_len : Nat) (ret : http_data_en)
  | printf
deriving DecidableEq, Repr

/-- The loop `for (i=0; i< BME_HTTP_SEND_RETRIES; i++)` of `bme_task`, entered with `n`
iterations left (`n = BME_HTTP_SEND_RETRIES - i`) and the relay in state `s`: the value of `i`
on leaving the loop, the relay then, and what was done.  While the task waits in
`bme.delay_us` in iteration `i` the other tasks run: `env i` is what they do to the relay. -/
def submit_loop (env : Nat → Relay → Relay) (data : List Nat) :
    Nat → Nat → Relay → Option (Nat × Relay × List BmeEv)
  | 0, i, s => some (i, s, [])
  | n + 1, i, s =>
    match http_send s data (strlen data) with
    | none => none
    | some (HTTP_DATA_OK, s1) =>
      some (i, s1, [BmeEv.http_send data (strlen data) HTTP_DATA_OK])
    | some (HTTP_DATA_PENDING, s1) =>
      match submit_loop env data n (i + 1) (env i s1) with
      | none => none
      | some (j, s2, t) =>
        some (j, s2, BmeEv.http_send data (strlen data) HTTP_DATA_PENDING
          :: BmeEv.delay_us (to_uint32 (BME_HTTP_SEND_RETRY_WAIT_MS * 1000)) :: t)

/-- One cycle of the `while (1)` loop of `bme_task`: whether the loop goes on (`false` is the
`break` after a sensor error), the relay after the submission loop, and what was done.
`mode_ret` and `data_ret` are what `bme280_set_sensor_mode` and `bme280_get_sensor_data`
return, `data` is the buffer `data[HTTP_FIELD_SIZE]` as `sprintf` filled it, `s` the relay at
the first submission attempt. -/
def bme_task_cycle (env : Nat → Relay → Relay) (mode_ret data_ret : Int) (data : List Nat)
    (s : Relay) : Option (Bool × Relay × List BmeEv) :=
  if mode_ret ≠ BME280_OK then
    some (false, s, [BmeEv.bme280_set_sensor_mode mode_ret, BmeEv.log_error])
  else if data_ret ≠ BME280_OK then
    some (false, s, [BmeEv.bme280_set_sensor_mode mode_ret, BmeEv.delay_us 40000,
      BmeEv.bme280_get_sensor_data data_ret, BmeEv.log_error])
  else
    match submit_loop env data BME_HTTP_SEND_RETRIES 0 s with
    | none => none
    | some (i, s1, t) =>
      match cycle_delay_us BME_SAMPLING_PERIOD_MS BME_HTTP_SEND_RETRY_WAIT_MS (i : Int) with
      | none => none
      | some period =>
        some (true, s1,
          [BmeEv.bme280_set_sensor_mode mode_ret, BmeEv.delay_us 40000,
            BmeEv.bme280_get_sensor_data data_ret, BmeEv.sprintf data]
          ++ t
          ++ [BmeEv.printf, BmeEv.delay_us period])

/-- The relay as the submission attempt with loop counter `i + j` finds it when the attempts
`i, …, i + j - 1` were rejected: a rejected `http_send` changes nothing, so only the other
tasks have acted on it, during the waits. -/
def relay_after (env : Nat → Relay → Relay) : Nat → Relay → Nat → Relay
  | _, s, 0 => s
  | i, s, j + 1 => relay_after env (i + 1) (env i s) j

/-- The trace of `n` rejected submission attempts, each followed by the retry wait of 100 ms
(100000 microseconds). -/
def rejected_attempts (data : List Nat) : Nat → List BmeEv
  | 0 => []
  | n + 1 =>
    BmeEv.http_send data (strlen data) HTTP_DATA_PENDING :: BmeEv.delay_us 100000
      :: rejected_attempts data n

/-- Whether a trace event is a submission attempt. -/
def BmeEv.isSend : BmeEv → Bool
  | BmeEv.http_send _ _ _ => true
  | _ => false

/-- The events of a cycle before the first submission attempt, when the sensor calls
succeed. -/
def cycle_head (data : List Nat) : List BmeEv :=
  [BmeEv.bme280_set_sensor_mode BME280_OK, BmeEv.delay_us 40000,
    BmeEv.bme280_get_sensor_data BME280_OK, BmeEv.sprintf data]

/-- Another task that clears the flag during the wait of iteration `n`, as a finished delivery
of `http_task` does. -/
def env_clear_at (n : Nat) : Nat → Relay → Relay :=
  fun i s => if i = n then { s with http_data_flag := HTTP_DATA_OK } else s

/-! ## Payload format (`bme.c`, the `sprintf` call of `bme_task`)

The sensor library is built with `BME280_FLOAT_ENABLE`, so the three members of
`struct bme280_data` are `double`s.  A finite `double` is modelled exactly, as sign, integer
mantissa and binary exponent; arithmetic rounds to the nearest 53-bit mantissa, ties to even,
as IEEE 754 prescribes.  Overflow, underflow, infinities and NaN are not modelled: the
exponent is unbounded. -/

/-- A finite `double`: the value `(-1)^neg * mant * 2^exp`. -/
structure binary64 where
  neg : Bool
  mant : Nat
  exp : Int
deriving DecidableEq, Repr

/-- The integer nearest to `num / den`, the even one of two equally near. -/
def round_half_even (num den : Nat) : Nat :=
  if 2 * (num % den) < den then num / den
  else if den < 2 * (num % den) then num / den + 1
  else if (num / den) % 2 = 0 then num / den else num / den + 1

/-- The position of the highest set bit of `n` (0 for `n < 2`); the first argument bounds the
number of halvings and is given as `n`. -/
def log2_floor : Nat → Nat → Nat
  | 0, _ => 0
  | f + 1, n => if n < 2 then 0 else log2_floor f (n / 2) + 1

/-- The `double` nearest to `± num / den`: the quotient is scaled by a power of two into
`[2^52, 2^53)`, rounded to an integer mantissa, and renormalised when rounding reaches
`2^53`. -/
def round_binary64 (neg : Bool) (num den : Nat) : binary64 :=
  if num = 0 then ⟨neg, 0, 0⟩ else
  let e0 : Int := (log2_floor num num : Int) - (log2_floor den den : Int) - 52
  let n0 := if e0 < 0 then num * 2 ^ (-e0).toNat else num
  let d0 := if e0 < 0 then den else den * 2 ^ e0.toNat
  let e := if n0 < 2 ^ 52 * d0 then e0 - 1 else e0
  let n := if n0 < 2 ^ 52 * d0 then 2 * n0 else n0
  let m := round_half_even n d0
  if m = 2 ^ 53 then ⟨neg, 2 ^ 52, e + 1⟩ else ⟨neg, m, e⟩

/-- The numerator of the magnitude of a `double` written as a fraction. -/
def binary64.num (x : binary64) : Nat := if x.exp < 0 then x.mant else x.mant * 2 ^ x.exp.toNat

/-- The denominator of the magnitude of a `double` written as a fraction. -/
def binary64.den (x : binary64) : Nat := if x.exp < 0 then 2 ^ (-x.exp).toNat else 1

/-- The product of two `double`s: the exact product, rounded. -/
def binary64.mul (x y : binary64) : binary64 :=
  round_binary64 (xor x.neg y.neg) (x.num * y.num) (x.den * y.den)

/-- The `double` a decimal constant denotes: the one nearest to `± digits / 10^scale`
(`decimal false 1 2` is the constant `0.01`). -/
def decimal (neg : Bool) (digits scale : Nat) : binary64 := round_binary64 neg digits (10 ^ scale)

/-- The ASCII character of a decimal digit. -/
def digit_char (d : Nat) : Char := Char.ofNat (48 + d)

/-- The decimal digits of `n`, most significant first; the first argument bounds the number of
digits and is given as `n + 1`. -/
def dec_digits : Nat → Nat → List Nat
  | 0, _ => []
  | f + 1, n => if n < 10 then [n] else dec_digits f (n / 10) ++ [n % 10]

/-- The number a list of decimal digits denotes, most significant digit first. -/
def of_digits (ds : List Nat) : Nat := ds.foldl (fun a d => 10 * a + d) 0

/-- The libc conversion `%0.2lf` of a finite `double`: a minus sign when the sign bit is set,
then the value rounded to two fraction digits (correctly, ties to even), written as integer
digits, a point and two fraction digits.  The flag `0` pads nothing without a field width. -/
def fmt_f2 (x : binary64) : List Char :=
  (if x.neg then ['-'] else [])
  ++ (dec_digits (round_half_even (x.num * 100) x.den / 100 + 1)
        (round_half_even (x.num * 100) x.den / 100)).map digit_char
  ++ ['.', digit_char (round_half_even (x.num * 100) x.den % 100 / 10),
        digit_char (round_half_even (x.num * 100) x.den % 10)]

/-- The libc call `sprintf` for format strings whose only conversion is `%0.2lf`: every
conversion takes the next argument, every other character is copied. -/
def sprintf : List Char → List binary64 → List Char
  | '%' :: '0' :: '.' :: '2' :: 'l' :: 'f' :: rest, x :: args => fmt_f2 x ++ sprintf rest args
  | c :: rest, args => c :: sprintf rest args
  | [], _ => []

/-- The members of `struct bme280_data` of the sensor library that `bme_task` reads. -/
structure bme280_data where
  temperature : binary64
  pressure : binary64
  humidity : binary64
deriving DecidableEq, Repr

/-- The format string of the `sprintf` call of `bme_task`. -/
def payload_format : String :=
  "sensor,location=home temperature=%0.2lf,pressure=%0.2lf,humidity=%0.2lf"

/-- The string the `sprintf` call of `bme_task` writes to `data`:
`sprintf(data, "...", bme_data.temperature, 0.01 * bme_data.pressure, bme_data.humidity)`. -/
def bme_payload (bme_data : bme280_data) : List Char :=
  sprintf payload_format.toList
    [bme_data.temperature, binary64.mul (decimal false 1 2) bme_data.pressure,
      bme_data.humidity]

/-! ## Interleavings of submission and delivery (`http.c`) -/

/-- An atomic step on the relay: a call of `http_send` by a producer, or one iteration of the
delivery loop of `http_task` (with what the HTTP client returns in it). -/
inductive RelayStep where
  | send (data : List Nat) (data_len : Nat)
  | deliver (perform_ret cleanup_ret : Int)
deriving DecidableEq, Repr

/-- The relay together with the history of an interleaving: the payloads `http_send` accepted
(returned `HTTP_DATA_OK` for) and the bodies the delivery loop POSTed, both in order. -/
structure RelayRun where
  relay : Relay
  accepted : List (List Nat)
  posts : List (List Nat)
deriving DecidableEq, Repr

/-- One step of an interleaving.  A payload is the first `data_len` bytes of `data`. -/
def relay_step (tick : Nat) (r : RelayRun) : RelayStep → Option RelayRun
  | RelayStep.send data data_len =>
    match http_send r.relay data data_len with
    | none => none
    | some (HTTP_DATA_OK, s1) =>
      some { r with relay := s1, accepted := r.accepted ++ [data.take data_len] }
    | some (HTTP_DATA_PENDING, s1) => some { r with relay := s1 }
  | RelayStep.deliver perform_ret cleanup_ret =>
    some { r with
      relay := (http_task perform_ret cleanup_ret tick r.relay).1,
      posts := r.posts ++ posted none (http_task perform_ret cleanup_ret tick r.relay).2 }

/-- A finite interleaving, step by step. -/
def relay_run (tick : Nat) (r : RelayRun) : List RelayStep → Option RelayRun
  | [] => some r
  | st :: rest =>
    match relay_step tick r st with
    | none => none
    | some r1 => relay_run tick r1 rest

/-- A submission is well formed when `data` holds `data_len` readable bytes and these fit the
buffer `field`; a delivery step always is. -/
def RelayStep.fits : RelayStep → Bool
  | RelayStep.send data data_len => decide (data_len ≤ data.length ∧ data_len ≤ HTTP_FIELD_SIZE)
  | RelayStep.deliver _ _ => true

/-- The payload in flight: the stored bytes while the slot is occupied, nothing otherwise. -/
def in_flight (s : Relay) : List (List Nat) :=
  if s.http_data_flag = HTTP_DATA_PENDING then [s.field.take s.field_len] else []

/-! # Theorems -/

/-! ## Telemetry relay -/

theorem memcpy_eq_some {dst src : List Nat} {n : Nat} (hs : n ≤ src.length)
    (hd : n ≤ dst.length) : memcpy dst src n = some (src.take n ++ dst.drop n) := by
  simp [memcpy, hs, hd]

theorem http_send_pending (s : Relay) (data : List Nat) (data_len : Nat)
    (h : s.http_data_flag = HTTP_DATA_PENDING) :
    http_send s data data_len = some (HTTP_DATA_PENDING, s) := by
  simp [http_send, h]

theorem http_send_empty (s : Relay) (data : List Nat) (data_len : Nat)
    (h : s.http_data_flag = HTTP_DATA_OK) (hs : data_len ≤ data.length)
    (hd : data_len ≤ s.field.length) :
    http_send s data data_len = some (HTTP_DATA_OK,
      { http_data_flag := HTTP_DATA_PENDING, field := data.take data_len ++ s.field.drop data_len,
        field_len := data_len }) := by
  simp [http_send, h, memcpy_eq_some hs hd]

/-- C1: when the slot is occupied (`http_data_flag = HTTP_DATA_PENDING`), `http_send` returns
`HTTP_DATA_PENDING` for every payload and leaves the flag, `field` and `field_len` as they
were; hence any number of such submissions in a row leaves the state as it was. -/
theorem C1_http_send_rejects_when_pending (s : Relay) (data : List Nat) (data_len : Nat)
    (h : s.http_data_flag = HTTP_DATA_PENDING) :
    http_send s data data_len = some (HTTP_DATA_PENDING, s) ∧
    ∀ reqs : List (List Nat × Nat), http_send_all s reqs = some s := by
  refine ⟨http_send_pending s data data_len h, ?_⟩
  intro reqs
  induction reqs with
  | nil => rfl
  | cons r rest ih =>
    obtain ⟨d, n⟩ := r
    simp [http_send_all, http_send_pending s d n h, ih]

theorem C1_http_send_rejects_when_pending_witness :
    http_send ⟨HTTP_DATA_PENDING, [1, 2, 3], 2⟩ [7, 8, 9] 3
        = some (HTTP_DATA_PENDING, ⟨HTTP_DATA_PENDING, [1, 2, 3], 2⟩) ∧
    ∀ reqs : List (List Nat × Nat),
      http_send_all ⟨HTTP_DATA_PENDING, [1, 2, 3], 2⟩ reqs
        = some ⟨HTTP_DATA_PENDING, [1, 2, 3], 2⟩ :=
  C1_http_send_rejects_when_pending ⟨HTTP_DATA_PENDING, [1, 2, 3], 2⟩ [7, 8, 9] 3 rfl

/-- C2: when the slot is empty (`http_data_flag = HTTP_DATA_OK`) and `data_len` is at most
`HTTP_FIELD_SIZE` (the payload being `data_len` readable bytes at `data`, the buffer `field`
having `HTTP_FIELD_SIZE` bytes), `http_send` returns `HTTP_DATA_OK`; afterwards the flag is
`HTTP_DATA_PENDING`, `field_len = data_len`, the first `data_len` bytes of `field` are the
submitted ones and the bytes at index `data_len` and above are unchanged. -/
theorem C2_http_send_accepts_when_empty (s : Relay) (data : List Nat) (data_len : Nat)
    (hflag : s.http_data_flag = HTTP_DATA_OK) (hfield : s.field.length = HTTP_FIELD_SIZE)
    (hlen : data_len ≤ HTTP_FIELD_SIZE) (hdata : data_len ≤ data.length) :
    ∃ s1 : Relay, http_send s data data_len = some (HTTP_DATA_OK, s1) ∧
      s1.http_data_flag = HTTP_DATA_PENDING ∧
      s1.field_len = data_len ∧
      s1.field.length = HTTP_FIELD_SIZE ∧
      s1.field.take data_len = data.take data_len ∧
      (∀ i, i < data_len → s1.field[i]? = data[i]?) ∧
      (∀ i, data_len ≤ i → s1.field[i]? = s.field[i]?) := by
  have hd : data_len ≤ s.field.length := by omega
  refine ⟨_, http_send_empty s data data_len hflag hdata hd, rfl, rfl, ?_, ?_, ?_, ?_⟩
  · simp only [List.length_append, List.length_take, List.length_drop]
    omega
  · rw [List.take_append_of_le_length (by simp [hdata])]
    simp
  · intro i hi
    have h1 : i < (data.take data_len).length := by simp; omega
    simp only [List.getElem?_append_left h1, List.getElem?_take, hi, if_true]
  · intro i hi
    have h1 : (data.take data_len).length ≤ i := by simp; omega
    rw [List.getElem?_append_right h1]
    simp only [List.length_take, Nat.min_eq_left hdata, List.getElem?_drop]
    congr 1
    omega

theorem C2_http_send_accepts_when_empty_witness :
    ∃ s1 : Relay, http_send Relay.initial [115, 101, 110] 3 = some (HTTP_DATA_OK, s1) ∧
      s1.http_data_flag = HTTP_DATA_PENDING ∧
      s1.field_len = 3 ∧
      s1.field.length = HTTP_FIELD_SIZE ∧
      s1.field.take 3 = [115, 101, 110].take 3 ∧
      (∀ i, i < 3 → s1.field[i]? = [115, 101, 110][i]?) ∧
      (∀ i, 3 ≤ i → s1.field[i]? = Relay.initial.field[i]?) :=
  C2_http_send_accepts_when_empty Relay.initial [115, 101, 110] 3 rfl
    (List.length_replicate _ _) (by decide) (by decide)

theorem http_task_empty (perform_ret cleanup_ret : Int) (tick : Nat) (s : Relay)
    (h : s.http_data_flag = HTTP_DATA_OK) :
    http_task perform_ret cleanup_ret tick s
      = (s, [HttpEv.vTaskDelay (HTTP_POLL_PERIOD_MS / tick)]) := by
  simp [http_task, h]

/-- What an iteration of the delivery loop does to an occupied slot, whatever the HTTP client
returns: the state afterwards, the one POST body, the one delivery attempt, the one store to
the flag, and the order of the two. -/
theorem http_task_delivers (perform_ret cleanup_ret : Int) (tick : Nat) (s : Relay)
    (h : s.http_data_flag = HTTP_DATA_PENDING) :
    (http_task perform_ret cleanup_ret tick s).1 = { s with http_data_flag := HTTP_DATA_OK } ∧
    posted none (http_task perform_ret cleanup_ret tick s).2 = [s.field.take s.field_len] ∧
    (http_task perform_ret cleanup_ret tick s).2.filter HttpEv.isPerform
      = [HttpEv.perform perform_ret] ∧
    flag_stores (http_task perform_ret cleanup_ret tick s).2 = [HTTP_DATA_OK] ∧
    ∃ pre post : List HttpEv,
      (http_task perform_ret cleanup_ret tick s).2
        = pre ++ HttpEv.perform perform_ret :: post ∧
      HttpEv.set_post_field s.field s.field_len ∈ pre ∧
      flag_stores pre = [] ∧ flag_stores post = [HTTP_DATA_OK] := by
  refine ⟨by simp [http_task, h], ?_, ?_, ?_, ?_⟩
  · by_cases hp : perform_ret = ESP_OK <;> by_cases hc : cleanup_ret = ESP_OK <;>
      simp [http_task, h, hp, hc, posted]
  · by_cases hp : perform_ret = ESP_OK <;> by_cases hc : cleanup_ret = ESP_OK <;>
      simp [http_task, h, hp, hc, HttpEv.isPerform]
  · by_cases hp : perform_ret = ESP_OK <;> by_cases hc : cleanup_ret = ESP_OK <;>
      simp [http_task, h, hp, hc, flag_stores]
  · refine ⟨[HttpEv.client_init, HttpEv.set_method_post,
      HttpEv.set_header "Content-Type" "text/plain",
      HttpEv.set_post_field s.field s.field_len],
      ((http_task perform_ret cleanup_ret tick s).2).drop 5, ?_, by simp, by simp [flag_stores],
      ?_⟩ <;>
    by_cases hp : perform_ret = ESP_OK <;> by_cases hc : cleanup_ret = ESP_OK <;>
      simp [http_task, h, hp, hc, flag_stores]

/-- C3: one iteration of the delivery loop of `http_task`.  If the slot is occupied, then
whatever `esp_http_client_perform` and `esp_http_client_cleanup` return, the iteration makes
exactly one delivery attempt, whose body is the stored `field` up to `field_len`, and stores
`HTTP_DATA_OK` to the flag exactly once, after the attempt, leaving `field` and `field_len`
alone.  If the slot is empty it makes no attempt, stores nothing and leaves the state
unchanged.  Hence a submission that `http_send` accepts is delivered and cleared by the next
iteration exactly once, and the iteration after that neither posts nor clears. -/
theorem C3_http_task_clears_once_after_delivery (perform_ret cleanup_ret : Int) (tick : Nat)
    (s : Relay) :
    (s.http_data_flag = HTTP_DATA_PENDING →
      (http_task perform_ret cleanup_ret tick s).1 = { s with http_data_flag := HTTP_DATA_OK } ∧
      posted none (http_task perform_ret cleanup_ret tick s).2 = [s.field.take s.field_len] ∧
      (http_task perform_ret cleanup_ret tick s).2.filter HttpEv.isPerform
        = [HttpEv.perform perform_ret] ∧
      flag_stores (http_task perform_ret cleanup_ret tick s).2 = [HTTP_DATA_OK] ∧
      ∃ pre post : List HttpEv,
        (http_task perform_ret cleanup_ret tick s).2
          = pre ++ HttpEv.perform perform_ret :: post ∧
        HttpEv.set_post_field s.field s.field_len ∈ pre ∧
        flag_stores pre = [] ∧ flag_stores post = [HTTP_DATA_OK]) ∧
    (s.http_data_flag = HTTP_DATA_OK →
      (http_task perform_ret cleanup_ret tick s).1 = s ∧
      (http_task perform_ret cleanup_ret tick s).2.filter HttpEv.isPerform = [] ∧
      posted none (http_task perform_ret cleanup_ret tick s).2 = [] ∧
      flag_stores (http_task perform_ret cleanup_ret tick s).2 = []) ∧
    (∀ (data : List Nat) (data_len : Nat) (s1 : Relay),
      http_send s data data_len = some (HTTP_DATA_OK, s1) →
      posted none (http_task perform_ret cleanup_ret tick s1).2 = [data.take data_len] ∧
      flag_stores (http_task perform_ret cleanup_ret tick s1).2 = [HTTP_DATA_OK] ∧
      (http_task perform_ret cleanup_ret tick s1).1.http_data_flag = HTTP_DATA_OK ∧
      ∀ (p2 c2 : Int),
        posted none (http_task p2 c2 tick (http_task perform_ret cleanup_ret tick s1).1).2 = [] ∧
        flag_stores (http_task p2 c2 tick (http_task perform_ret cleanup_ret tick s1).1).2
          = []) := by
  refine ⟨http_task_delivers perform_ret cleanup_ret tick s, ?_, ?_⟩
  · intro h
    rw [http_task_empty perform_ret cleanup_ret tick s h]
    simp [HttpEv.isPerform, posted, flag_stores]
  · intro data data_len s1 hs
    have hflag : s.http_data_flag ≠ HTTP_DATA_PENDING := by
      intro hp
      rw [http_send_pending s data data_len hp] at hs
      simp at hs
    have hb : data_len ≤ data.length ∧ data_len ≤ s.field.length := by
      by_contra hb
      simp [http_send, hflag, memcpy, hb] at hs
    have hok : s.http_data_flag = HTTP_DATA_OK := by
      cases hf : s.http_data_flag with
      | HTTP_DATA_OK => rfl
      | HTTP_DATA_PENDING => exact absurd hf hflag
    rw [http_send_empty s data data_len hok hb.1 hb.2] at hs
    simp only [Option.some.injEq, Prod.mk.injEq, true_and] at hs
    subst hs
    obtain ⟨h1, h2, -, h4, -⟩ := http_task_delivers perform_ret cleanup_ret tick
      { http_data_flag := HTTP_DATA_PENDING,
        field := data.take data_len ++ s.field.drop data_len, field_len := data_len } rfl
    refine ⟨?_, h4, by rw [h1], ?_⟩
    · rw [h2]
      simp only [List.cons.injEq, and_true]
      rw [List.take_append_of_le_length (by simp [hb.1])]
      simp
    · intro p2 c2
      rw [h1, http_task_empty p2 c2 tick _ rfl]
      simp [posted, flag_stores]

/-- A failed delivery (`esp_http_client_perform` returns `ESP_FAIL`) of the stored two bytes
still posts them once and clears the slot once. -/
theorem C3_http_task_clears_once_after_delivery_witness :
    posted none (http_task (-1) 0 10 ⟨HTTP_DATA_PENDING, [104, 105, 0], 2⟩).2 = [[104, 105]] ∧
    flag_stores (http_task (-1) 0 10 ⟨HTTP_DATA_PENDING, [104, 105, 0], 2⟩).2
      = [HTTP_DATA_OK] ∧
    (http_task (-1) 0 10 ⟨HTTP_DATA_PENDING, [104, 105, 0], 2⟩).1
      = ⟨HTTP_DATA_OK, [104, 105, 0], 2⟩ :=
  have h := (C3_http_task_clears_once_after_delivery (-1) 0 10
    ⟨HTTP_DATA_PENDING, [104, 105, 0], 2⟩).1 rfl
  ⟨h.2.1, h.2.2.2.1, h.1⟩

/-! ## Network supervisor -/

theorem wifi_step_counter_le (s : Wifi) (st : WifiStep)
    (h : s.wifi_reconnect_counter ≤ WIFI_MAX_RECONNECTIONS) :
    (wifi_step s st).1.wifi_reconnect_counter ≤ WIFI_MAX_RECONNECTIONS := by
  cases st with
  | event b i r =>
    simp only [wifi_step, wifi_event_handler]
    split_ifs <;> simp_all [WIFI_MAX_RECONNECTIONS] <;> omega
  | rearm r =>
    simp only [wifi_step, wifi_task_rearm]
    split_ifs <;> simp_all
  | check_connection => simpa [wifi_step, wifi_check_connection] using h

theorem wifi_run_counter_le (steps : List WifiStep) (s : Wifi)
    (h : s.wifi_reconnect_counter ≤ WIFI_MAX_RECONNECTIONS) :
    (wifi_run s steps).1.wifi_reconnect_counter ≤ WIFI_MAX_RECONNECTIONS := by
  induction steps generalizing s with
  | nil => simpa [wifi_run] using h
  | cons st rest ih => exact ih _ (wifi_step_counter_le s st h)

theorem wifi_fail_posted_only_at_max (s : Wifi) (st : WifiStep)
    (h : s.wifi_reconnect_counter ≤ WIFI_MAX_RECONNECTIONS)
    (hf : WifiEv.xEventGroupSetBits WIFI_FAIL_BIT ∈ (wifi_step s st).2) :
    (∃ r, st = WifiStep.event WIFI_EVENT WIFI_EVENT_STA_DISCONNECTED r) ∧
      s.wifi_reconnect_counter = WIFI_MAX_RECONNECTIONS := by
  cases st with
  | event b i r =>
    simp only [wifi_step, wifi_event_handler] at hf
    split_ifs at hf with h1 h2 h3 h4 h5 h6 <;>
      simp [WIFI_FAIL_BIT, WIFI_CONNECTED_BIT] at hf
    exact ⟨⟨r, by rw [h3.1, h3.2]⟩, by omega⟩
  | rearm r =>
    simp only [wifi_step, wifi_task_rearm] at hf
    split_ifs at hf <;> simp at hf
  | check_connection =>
    simp only [wifi_step, wifi_check_connection] at hf
    split_ifs at hf <;> simp at hf

theorem lor_land_self (b m : Nat) : (b ||| m) &&& m = m := by
  apply Nat.eq_of_testBit_eq
  intro i
  simp only [Nat.testBit_and, Nat.testBit_or]
  cases b.testBit i <;> cases m.testBit i <;> rfl

/-- C4: for every finite sequence of supervisor steps (events of any kind handled by
`wifi_event_handler`, re-arm checks of the `wifi_task` loop, returns of
`wifi_check_connection`) from a state with `wifi_reconnect_counter = 0`: the counter is at
most `WIFI_MAX_RECONNECTIONS` in the state reached; a next step posts `WIFI_FAIL_BIT` only if
it is a disconnect event handled while the counter equals `WIFI_MAX_RECONNECTIONS`; and right
after an address-acquired event the counter is 0 and `WIFI_CONNECTED_BIT` is set. -/
theorem C4_reconnect_counter_bounded (s0 : Wifi) (h0 : s0.wifi_reconnect_counter = 0)
    (steps : List WifiStep) :
    (wifi_run s0 steps).1.wifi_reconnect_counter ≤ WIFI_MAX_RECONNECTIONS ∧
    (∀ st : WifiStep,
      WifiEv.xEventGroupSetBits WIFI_FAIL_BIT ∈ (wifi_step (wifi_run s0 steps).1 st).2 →
      (∃ r, st = WifiStep.event WIFI_EVENT WIFI_EVENT_STA_DISCONNECTED r) ∧
        (wifi_run s0 steps).1.wifi_reconnect_counter = WIFI_MAX_RECONNECTIONS) ∧
    (∀ r : Int,
      (wifi_step (wifi_run s0 steps).1
          (WifiStep.event IP_EVENT IP_EVENT_STA_GOT_IP r)).1.wifi_reconnect_counter = 0 ∧
      (wifi_step (wifi_run s0 steps).1
          (WifiStep.event IP_EVENT IP_EVENT_STA_GOT_IP r)).1.event_bits &&& WIFI_CONNECTED_BIT
        = WIFI_CONNECTED_BIT ∧
      WifiEv.xEventGroupSetBits WIFI_CONNECTED_BIT ∈
        (wifi_step (wifi_run s0 steps).1 (WifiStep.event IP_EVENT IP_EVENT_STA_GOT_IP r)).2) := by
  have hle : (wifi_run s0 steps).1.wifi_reconnect_counter ≤ WIFI_MAX_RECONNECTIONS :=
    wifi_run_counter_le steps s0 (by rw [h0]; exact Nat.zero_le _)
  refine ⟨hle, fun st hf => wifi_fail_posted_only_at_max _ st hle hf, fun r => ?_⟩
  simp [wifi_step, wifi_event_handler, lor_land_self]

theorem C4_reconnect_counter_bounded_witness :
    (wifi_run Wifi.initial (disconnects [0, 0, 0])).1.wifi_reconnect_counter
        ≤ WIFI_MAX_RECONNECTIONS ∧
    (∀ st : WifiStep,
      WifiEv.xEventGroupSetBits WIFI_FAIL_BIT
        ∈ (wifi_step (wifi_run Wifi.initial (disconnects [0, 0, 0])).1 st).2 →
      (∃ r, st = WifiStep.event WIFI_EVENT WIFI_EVENT_STA_DISCONNECTED r) ∧
        (wifi_run Wifi.initial (disconnects [0, 0, 0])).1.wifi_reconnect_counter
          = WIFI_MAX_RECONNECTIONS) ∧
    (∀ r : Int,
      (wifi_step (wifi_run Wifi.initial (disconnects [0, 0, 0])).1
          (WifiStep.event IP_EVENT IP_EVENT_STA_GOT_IP r)).1.wifi_reconnect_counter = 0 ∧
      (wifi_step (wifi_run Wifi.initial (disconnects [0, 0, 0])).1
          (WifiStep.event IP_EVENT IP_EVENT_STA_GOT_IP r)).1.event_bits &&& WIFI_CONNECTED_BIT
        = WIFI_CONNECTED_BIT ∧
      WifiEv.xEventGroupSetBits WIFI_CONNECTED_BIT ∈
        (wifi_step (wifi_run Wifi.initial (disconnects [0, 0, 0])).1
          (WifiStep.event IP_EVENT IP_EVENT_STA_GOT_IP r)).2) :=
  C4_reconnect_counter_bounded Wifi.initial rfl (disconnects [0, 0, 0])

theorem wifi_run_append (a b : List WifiStep) (s : Wifi) :
    wifi_run s (a ++ b)
      = ((wifi_run (wifi_run s a).1 b).1, (wifi_run s a).2 ++ (wifi_run (wifi_run s a).1 b).2) := by
  induction a generalizing s with
  | nil => simp [wifi_run]
  | cons st rest ih => simp [wifi_run, ih]

theorem wifi_disconnect_below_max (r : Int) (s : Wifi)
    (h : s.wifi_reconnect_counter < WIFI_MAX_RECONNECTIONS) :
    (wifi_event_handler r WIFI_EVENT WIFI_EVENT_STA_DISCONNECTED s).1
        = { s with wifi_reconnect_counter := s.wifi_reconnect_counter + 1 } ∧
    WifiEv.xEventGroupSetBits WIFI_FAIL_BIT
        ∉ (wifi_event_handler r WIFI_EVENT WIFI_EVENT_STA_DISCONNECTED s).2 ∧
    (wifi_event_handler r WIFI_EVENT WIFI_EVENT_STA_DISCONNECTED s).2.filter WifiEv.isConnect
        = [WifiEv.esp_wifi_connect r] := by
  have hmod : (s.wifi_reconnect_counter + 1) % 256 = s.wifi_reconnect_counter + 1 := by
    simp only [WIFI_MAX_RECONNECTIONS] at h
    omega
  refine ⟨?_, ?_, ?_⟩
  · simp [wifi_event_handler, WIFI_EVENT_STA_START, WIFI_EVENT_STA_DISCONNECTED, h, hmod]
  · by_cases hr : r = ESP_OK <;>
      simp [wifi_event_handler, WIFI_EVENT_STA_START, WIFI_EVENT_STA_DISCONNECTED, h, hr]
  · by_cases hr : r = ESP_OK <;>
      simp [wifi_event_handler, WIFI_EVENT_STA_START, WIFI_EVENT_STA_DISCONNECTED, h, hr,
        WifiEv.isConnect]

theorem wifi_disconnect_at_max (r : Int) (s : Wifi)
    (h : s.wifi_reconnect_counter = WIFI_MAX_RECONNECTIONS) :
    wifi_event_handler r WIFI_EVENT WIFI_EVENT_STA_DISCONNECTED s
      = ({ s with event_bits := s.event_bits ||| WIFI_FAIL_BIT },
          [WifiEv.xEventGroupSetBits WIFI_FAIL_BIT]) := by
  simp [wifi_event_handler, WIFI_EVENT_STA_START, WIFI_EVENT_STA_DISCONNECTED, h]

theorem wifi_run_disconnects (rets : List Int) (s : Wifi)
    (h : s.wifi_reconnect_counter + rets.length ≤ WIFI_MAX_RECONNECTIONS) :
    (wifi_run s (disconnects rets)).1
        = { s with wifi_reconnect_counter := s.wifi_reconnect_counter + rets.length } ∧
    WifiEv.xEventGroupSetBits WIFI_FAIL_BIT ∉ (wifi_run s (disconnects rets)).2 ∧
    (wifi_run s (disconnects rets)).2.filter WifiEv.isConnect
        = rets.map WifiEv.esp_wifi_connect := by
  induction rets generalizing s with
  | nil => simp [disconnects, wifi_run]
  | cons r rest ih =>
    simp only [List.length_cons] at h
    obtain ⟨h1, h2, h3⟩ := wifi_disconnect_below_max r s (by omega)
    have hlen : ({ s with wifi_reconnect_counter := s.wifi_reconnect_counter + 1 } :
        Wifi).wifi_reconnect_counter + rest.length ≤ WIFI_MAX_RECONNECTIONS := by
      simp only []
      omega
    obtain ⟨i1, i2, i3⟩ := ih _ hlen
    simp only [disconnects] at i1 i2 i3
    simp only [disconnects, List.map_cons, wifi_run, wifi_step, h1, List.mem_append,
      List.filter_append, h3, i1, i3, List.length_cons]
    refine ⟨?_, ?_, by simp⟩
    · simp only [Wifi.mk.injEq, and_true]
      omega
    · rintro (hf | hf)
      · exact h2 hf
      · exact i2 hf

/-- C5 as stated fails: from the initial state (counter 0, no bit set), once 10 consecutive
disconnect events have been handled the counter is 10 and 10 connection attempts were made,
but `WIFI_FAIL_BIT` has not been posted. -/
theorem C5_ten_disconnects_do_not_post_fail :
    ¬ (WifiEv.xEventGroupSetBits WIFI_FAIL_BIT
        ∈ (wifi_run Wifi.initial (disconnects (List.replicate 10 0))).2 ∨
      (wifi_run Wifi.initial (disconnects (List.replicate 10 0))).1.event_bits &&& WIFI_FAIL_BIT
        ≠ 0) := by
  decide

/-- C5, amended: with `WIFI_MAX_RECONNECTIONS = 10` and `wifi_reconnect_counter = 0`, the
first 10 consecutive disconnect events each increment the counter and issue a connection
attempt, leaving the counter at 10 with no `WIFI_FAIL_BIT` posted and the event bits
untouched; it is the 11th consecutive disconnect event, handled while the counter equals the
maximum, that posts `WIFI_FAIL_BIT`, and it issues no further attempt. -/
theorem C5_eleventh_disconnect_posts_fail (s0 : Wifi) (rets : List Int) (r11 : Int)
    (h0 : s0.wifi_reconnect_counter = 0) (hlen : rets.length = WIFI_MAX_RECONNECTIONS) :
    (wifi_run s0 (disconnects rets)).1
        = { s0 with wifi_reconnect_counter := WIFI_MAX_RECONNECTIONS } ∧
    WifiEv.xEventGroupSetBits WIFI_FAIL_BIT ∉ (wifi_run s0 (disconnects rets)).2 ∧
    (wifi_run s0 (disconnects rets)).2.filter WifiEv.isConnect
        = rets.map WifiEv.esp_wifi_connect ∧
    (wifi_run s0 (disconnects (rets ++ [r11]))).1
        = { wifi_reconnect_counter := WIFI_MAX_RECONNECTIONS,
            event_bits := s0.event_bits ||| WIFI_FAIL_BIT } ∧
    (wifi_run s0 (disconnects (rets ++ [r11]))).2
        = (wifi_run s0 (disconnects rets)).2 ++ [WifiEv.xEventGroupSetBits WIFI_FAIL_BIT] ∧
    (wifi_run s0 (disconnects (rets ++ [r11]))).1.event_bits &&& WIFI_FAIL_BIT
        = WIFI_FAIL_BIT := by
  obtain ⟨h1, h2, h3⟩ := wifi_run_disconnects rets s0 (by rw [h0, hlen]; simp)
  rw [h0, hlen, Nat.zero_add] at h1
  have h11 : wifi_run s0 (disconnects (rets ++ [r11]))
      = ({ wifi_reconnect_counter := WIFI_MAX_RECONNECTIONS,
            event_bits := s0.event_bits ||| WIFI_FAIL_BIT },
          (wifi_run s0 (disconnects rets)).2 ++ [WifiEv.xEventGroupSetBits WIFI_FAIL_BIT]) := by
    simp only [disconnects, List.map_append, List.map_cons, List.map_nil] at h1 ⊢
    rw [wifi_run_append, h1]
    simp [wifi_run, wifi_step, wifi_disconnect_at_max]
  refine ⟨h1, h2, h3, ?_, ?_, ?_⟩
  · rw [h11]
  · rw [h11]
  · rw [h11]
    exact lor_land_self _ _

theorem C5_eleventh_disconnect_posts_fail_witness :
    (wifi_run Wifi.initial (disconnects (List.replicate 10 0))).1
        = { Wifi.initial with wifi_reconnect_counter := WIFI_MAX_RECONNECTIONS } ∧
    WifiEv.xEventGroupSetBits WIFI_FAIL_BIT
        ∉ (wifi_run Wifi.initial (disconnects (List.replicate 10 0))).2 ∧
    (wifi_run Wifi.initial (disconnects (List.replicate 10 0))).2.filter WifiEv.isConnect
        = (List.replicate 10 0).map WifiEv.esp_wifi_connect ∧
    (wifi_run Wifi.initial (disconnects (List.replicate 10 0 ++ [0]))).1
        = { wifi_reconnect_counter := WIFI_MAX_RECONNECTIONS,
            event_bits := Wifi.initial.event_bits ||| WIFI_FAIL_BIT } ∧
    (wifi_run Wifi.initial (disconnects (List.replicate 10 0 ++ [0]))).2
        = (wifi_run Wifi.initial (disconnects (List.replicate 10 0))).2
          ++ [WifiEv.xEventGroupSetBits WIFI_FAIL_BIT] ∧
    (wifi_run Wifi.initial (disconnects (List.replicate 10 0 ++ [0]))).1.event_bits
        &&& WIFI_FAIL_BIT = WIFI_FAIL_BIT :=
  C5_eleventh_disconnect_posts_fail Wifi.initial (List.replicate 10 0) 0 rfl (by decide)

/-- C6 as stated fails: in the state with counter 10 and no bit set, after the re-arm step and
the handling of the synthetic disconnect event the counter is 1, not 0. -/
theorem C6_counter_is_one_after_rearm :
    ¬ ((wifi_run ⟨10, 0⟩ [WifiStep.rearm 0,
        WifiStep.event WIFI_EVENT WIFI_EVENT_STA_DISCONNECTED 0]).1.wifi_reconnect_counter = 0) := by
  decide

/-- C6, amended: when the `wifi_task` loop finds `wifi_reconnect_counter` equal to
`WIFI_MAX_RECONNECTIONS`, the re-arm step resets the counter to 0 and posts a synthetic
disconnect event; once `wifi_event_handler` has handled that event the counter is 1 (the
handler counts the new attempt), one connection attempt (`esp_wifi_connect`) has been issued,
no `WIFI_FAIL_BIT` was posted and the event bits are as before. -/
theorem C6_rearm_restarts_attempts (s : Wifi) (post_ret connect_ret : Int)
    (h : s.wifi_reconnect_counter = WIFI_MAX_RECONNECTIONS) :
    wifi_task_rearm post_ret s
      = ({ s with wifi_reconnect_counter := 0 },
          [WifiEv.esp_event_post WIFI_EVENT WIFI_EVENT_STA_DISCONNECTED post_ret]) ∧
    (wifi_event_handler connect_ret WIFI_EVENT WIFI_EVENT_STA_DISCONNECTED
        (wifi_task_rearm post_ret s).1).1
      = { s with wifi_reconnect_counter := 1 } ∧
    (wifi_event_handler connect_ret WIFI_EVENT WIFI_EVENT_STA_DISCONNECTED
        (wifi_task_rearm post_ret s).1).2.filter WifiEv.isConnect
      = [WifiEv.esp_wifi_connect connect_ret] ∧
    WifiEv.xEventGroupSetBits WIFI_FAIL_BIT
      ∉ (wifi_event_handler connect_ret WIFI_EVENT WIFI_EVENT_STA_DISCONNECTED
          (wifi_task_rearm post_ret s).1).2 := by
  have hr : wifi_task_rearm post_ret s
      = ({ s with wifi_reconnect_counter := 0 },
          [WifiEv.esp_event_post WIFI_EVENT WIFI_EVENT_STA_DISCONNECTED post_ret]) := by
    simp [wifi_task_rearm, h]
  obtain ⟨h1, h2, h3⟩ := wifi_disconnect_below_max connect_ret
    { s with wifi_reconnect_counter := 0 } (by simp [WIFI_MAX_RECONNECTIONS])
  rw [hr]
  exact ⟨rfl, h1, h3, h2⟩

theorem C6_rearm_restarts_attempts_witness :
    wifi_task_rearm 0 ⟨10, 2⟩
      = ({ (⟨10, 2⟩ : Wifi) with wifi_reconnect_counter := 0 },
          [WifiEv.esp_event_post WIFI_EVENT WIFI_EVENT_STA_DISCONNECTED 0]) ∧
    (wifi_event_handler 0 WIFI_EVENT WIFI_EVENT_STA_DISCONNECTED
        (wifi_task_rearm 0 ⟨10, 2⟩).1).1
      = { (⟨10, 2⟩ : Wifi) with wifi_reconnect_counter := 1 } ∧
    (wifi_event_handler 0 WIFI_EVENT WIFI_EVENT_STA_DISCONNECTED
        (wifi_task_rearm 0 ⟨10, 2⟩).1).2.filter WifiEv.isConnect
      = [WifiEv.esp_wifi_connect 0] ∧
    WifiEv.xEventGroupSetBits WIFI_FAIL_BIT
      ∉ (wifi_event_handler 0 WIFI_EVENT WIFI_EVENT_STA_DISCONNECTED
          (wifi_task_rearm 0 ⟨10, 2⟩).1).2 :=
  C6_rearm_restarts_attempts ⟨10, 2⟩ 0 0 rfl

/-! ## Bus transactions -/

theorem bme_read_eq_calls (drv : I2cDriver) (tick reg_addr len addr : Nat) :
    bme_read drv tick reg_addr len addr
      = i2c_result (match i2c_calls drv (bme_read_cmds tick reg_addr len addr)
            [I2cEv.i2c_cmd_link_create] with
          | Except.ok t => Except.ok (t ++ [I2cEv.i2c_cmd_link_delete])
          | Except.error t => Except.error t) := by
  unfold bme_read bme_read_cmds
  by_cases h : len > 1
  · simp only [h, if_true, List.cons_append, List.nil_append, i2c_calls, bind, Except.bind, pure,
      Except.pure]
    repeat' split
    all_goals simp_all
  · simp only [h, if_false, List.cons_append, List.nil_append, List.append_nil, i2c_calls, bind,
      Except.bind, pure, Except.pure]
    repeat' split
    all_goals simp_all

theorem bme_write_eq_calls (drv : I2cDriver) (tick reg_addr : Nat) (reg_data : List Nat)
    (len addr : Nat) :
    bme_write drv tick reg_addr reg_data len addr
      = i2c_result (match i2c_calls drv (bme_write_cmds tick reg_addr reg_data len addr)
            [I2cEv.i2c_cmd_link_create] with
          | Except.ok t => Except.ok (t ++ [I2cEv.i2c_cmd_link_delete])
          | Except.error t => Except.error t) := by
  unfold bme_write bme_write_cmds
  simp only [i2c_calls, bind, Except.bind, pure, Except.pure]
  repeat' split
  all_goals simp_all

theorem primitives_append (a b : List I2cEv) :
    primitives (a ++ b) = primitives a ++ primitives b := by
  induction a with
  | nil => rfl
  | cons x xs ih => cases x <;> simp [primitives, ih]

theorem primitives_map_call (cs : List I2cCmd) (e : Int) :
    primitives (cs.map (fun c => I2cEv.call c e)) = cs.map (fun c => (c, e)) := by
  induction cs with
  | nil => rfl
  | cons c cs ih => simp [primitives, ih]

theorem mem_primitives {c : I2cCmd} {e : Int} {t : List I2cEv} :
    (c, e) ∈ primitives t ↔ I2cEv.call c e ∈ t := by
  induction t with
  | nil => simp [primitives]
  | cons x xs ih => cases x <;> simp [primitives, ih]

/-- The two ways a run of checked primitives ends: every one returned `ESP_OK`, or the trace
stops at the first one that did not. -/
theorem i2c_calls_shape (drv : I2cDriver) (cs : List I2cCmd) (t : List I2cEv) :
    i2c_calls drv cs t = Except.ok (t ++ cs.map (fun c => I2cEv.call c ESP_OK)) ∨
    ∃ (pre post : List I2cCmd) (c : I2cCmd) (e : Int),
      cs = pre ++ c :: post ∧ e ≠ ESP_OK ∧
      i2c_calls drv cs t
        = Except.error (t ++ pre.map (fun c => I2cEv.call c ESP_OK) ++ [I2cEv.call c e]) := by
  induction cs generalizing t with
  | nil => left; simp [i2c_calls]
  | cons c cs ih =>
    by_cases h : drv t c = ESP_OK
    · have hc : i2c_call drv c t = Except.ok (t ++ [I2cEv.call c ESP_OK]) := by
        simp [i2c_call, h]
      rcases ih (t ++ [I2cEv.call c ESP_OK]) with hok | ⟨pre, post, c1, e, h1, h2, h3⟩
      · left
        simp only [i2c_calls, hc, hok]
        simp
      · right
        refine ⟨c :: pre, post, c1, e, by rw [h1]; rfl, h2, ?_⟩
        simp only [i2c_calls, hc, h3]
        simp
    · right
      refine ⟨[], cs, c, drv t c, rfl, h, ?_⟩
      simp [i2c_calls, i2c_call, h]

theorem append_singleton_split {α : Type} (l pre post : List α) (x y : α)
    (h : l ++ [x] = pre ++ y :: post) : post = [] ∨ y ∈ l := by
  rcases List.eq_nil_or_concat post with hp | ⟨L, b, hp⟩
  · exact Or.inl hp
  · right
    rw [hp, List.concat_eq_append] at h
    have h2 : l ++ [x] = (pre ++ y :: L) ++ [b] := by simpa using h
    have h3 := (List.append_inj' h2 rfl).1
    rw [h3]
    simp

/-- A transaction function built from checked primitives between the creation and the
deletion of the command link is all-or-nothing. -/
theorem all_or_nothing_of_calls (drv : I2cDriver) (cs : List I2cCmd) :
    all_or_nothing (i2c_result (match i2c_calls drv cs [I2cEv.i2c_cmd_link_create] with
      | Except.ok t => Except.ok (t ++ [I2cEv.i2c_cmd_link_delete])
      | Except.error t => Except.error t)) := by
  rcases i2c_calls_shape drv cs [I2cEv.i2c_cmd_link_create] with hok | ⟨pre, post, c, e, h1, h2, h3⟩
  · rw [hok]
    simp only [i2c_result]
    have hall : ∀ (c : I2cCmd) (e : Int),
        I2cEv.call c e ∈ [I2cEv.i2c_cmd_link_create] ++ cs.map (fun c => I2cEv.call c ESP_OK)
          ++ [I2cEv.i2c_cmd_link_delete] → e = ESP_OK := by
      intro c e hm
      simp only [List.mem_append, List.mem_singleton, List.mem_map, reduceCtorEq, false_or,
        or_false] at hm
      obtain ⟨c1, -, hc⟩ := hm
      injection hc with _ he
      exact he.symm
    refine ⟨⟨fun _ p hp => hall p.1 p.2 (mem_primitives.mp hp), fun _ => rfl⟩, Or.inl rfl, ?_, ?_⟩
    · intro pre post c e heq hne
      dsimp only at heq
      exact absurd (hall c e (by rw [heq]; simp)) hne
    · intro pre post port ticks e heq p hp
      dsimp only at heq
      exact hall p.1 p.2 (by rw [heq]; simp [mem_primitives.mp hp])
  · rw [h3]
    simp only [i2c_result]
    have hpre : ∀ (c1 : I2cCmd) (e1 : Int),
        I2cEv.call c1 e1 ∈ [I2cEv.i2c_cmd_link_create] ++ pre.map (fun c => I2cEv.call c ESP_OK)
          → e1 = ESP_OK := by
      intro c1 e1 hm
      simp only [List.mem_append, List.mem_singleton, List.mem_map, reduceCtorEq, false_or] at hm
      obtain ⟨c2, -, hc⟩ := hm
      injection hc with _ he
      exact he.symm
    refine ⟨⟨fun hr => ?_, fun hp => ?_⟩, Or.inr rfl, ?_, ?_⟩
    · simp [BME280_FAIL, BME280_OK] at hr
    · exact absurd (hp (c, e) (mem_primitives.mpr (by simp))) h2
    · intro pre1 post1 c1 e1 heq hne
      dsimp only at heq
      refine ⟨rfl, ?_⟩
      rcases append_singleton_split _ pre1 post1 _ _ heq with hnil | hmem
      · exact hnil
      · exact absurd (hpre c1 e1 hmem) hne
    · intro pre1 post1 port ticks e1 heq p hp
      dsimp only at heq
      have hmem : I2cEv.call p.1 p.2 ∈ pre1 := mem_primitives.mp hp
      obtain ⟨a, b, hab⟩ := List.append_of_mem hmem
      have heq2 : [I2cEv.i2c_cmd_link_create] ++ pre.map (fun c => I2cEv.call c ESP_OK)
            ++ [I2cEv.call c e]
          = a ++ I2cEv.call p.1 p.2
            :: (b ++ I2cEv.call (I2cCmd.i2c_master_cmd_begin port ticks) e1 :: post1) := by
        rw [heq, hab]
        simp
      rcases append_singleton_split _ a _ _ _ heq2 with hnil | hmem2
      · simp at hnil
      · exact hpre p.1 p.2 hmem2

/-- C9: `bme_read` and `bme_write` are all-or-nothing, whatever the driver returns: each
returns `BME280_OK` if and only if every bus primitive it invoked returned `ESP_OK`, and
`BME280_FAIL` (-7) otherwise; a primitive that returned an error is the last call made (no
later primitive is invoked); and `i2c_master_cmd_begin` is invoked only when every step
queued before it returned `ESP_OK`. -/
theorem C9_bus_transactions_all_or_nothing (drv : I2cDriver) (tick reg_addr len addr : Nat)
    (reg_data : List Nat) :
    all_or_nothing (bme_read drv tick reg_addr len addr) ∧
    all_or_nothing (bme_write drv tick reg_addr reg_data len addr) ∧
    BME280_FAIL = -7 := by
  rw [bme_read_eq_calls, bme_write_eq_calls]
  exact ⟨all_or_nothing_of_calls drv _, all_or_nothing_of_calls drv _, rfl⟩

/-- An error while queuing: the third primitive of a read (the register address byte) returns
`ESP_FAIL`; `bme_read` returns `BME280_FAIL` and the trace ends there. -/
theorem C9_bus_transactions_all_or_nothing_witness :
    bme_read (drv_fail_at 3) 10 208 8 118
      = (BME280_FAIL,
          [I2cEv.i2c_cmd_link_create,
            I2cEv.call I2cCmd.i2c_master_start ESP_OK,
            I2cEv.call (I2cCmd.i2c_master_write_byte 236 1) ESP_OK,
            I2cEv.call (I2cCmd.i2c_master_write_byte 208 1) (-1)]) ∧
    all_or_nothing (bme_read (drv_fail_at 3) 10 208 8 118) :=
  ⟨by decide, (C9_bus_transactions_all_or_nothing (drv_fail_at 3) 10 208 8 118 []).1⟩

theorem addr_byte (addr rw : Nat) (ha : addr < 128) (hrw : rw < 2) :
    ((addr <<< 1) ||| rw) % 256 = 2 * addr + rw ∧ (addr <<< 1) ||| rw = 2 * addr + rw := by
  have h1 : (addr <<< 1) ||| rw = 2 * addr + rw := by
    rw [Nat.shiftLeft_eq, Nat.mul_comm]
    exact (Nat.mul_add_lt_is_or (i := 1) (by simpa using hrw) addr).symm
  rw [h1]
  exact ⟨by omega, rfl⟩

/-- When `bme_read` returns `BME280_OK` its trace is the whole command sequence, every
primitive having returned `ESP_OK`. -/
theorem bme_read_ok_trace (drv : I2cDriver) (tick reg_addr len addr : Nat)
    (hok : (bme_read drv tick reg_addr len addr).1 = BME280_OK) :
    (bme_read drv tick reg_addr len addr).2
      = [I2cEv.i2c_cmd_link_create]
        ++ (bme_read_cmds tick reg_addr len addr).map (fun c => I2cEv.call c ESP_OK)
        ++ [I2cEv.i2c_cmd_link_delete] := by
  rw [bme_read_eq_calls] at hok ⊢
  rcases i2c_calls_shape drv (bme_read_cmds tick reg_addr len addr) [I2cEv.i2c_cmd_link_create]
    with h | ⟨pre, post, c, e, -, -, h⟩
  · rw [h]
    rfl
  · rw [h] at hok
    simp [i2c_result, BME280_FAIL, BME280_OK] at hok

/-- C10: for every register address, every 7-bit device address `addr` and every `len ≥ 1`, a
`bme_read` that returns `BME280_OK` (all primitives succeeded) has queued exactly: start;
write byte `(addr << 1) | 0`; write byte `reg_addr`; start again, with no stop in between;
write byte `(addr << 1) | 1`; if `len > 1`, one acknowledged read of `len - 1` bytes into
`reg_data[0 .. len-2]`; one not-acknowledged single-byte read into `reg_data[len-1]`; stop;
and then executed the transaction.  The bytes requested total `len`, and for `len = 1` no
multi-byte read is queued. -/
theorem C10_bme_read_command_sequence (drv : I2cDriver) (tick reg_addr len addr : Nat)
    (haddr : addr < 128) (hlen : 1 ≤ len)
    (hok : (bme_read drv tick reg_addr len addr).1 = BME280_OK) :
    (bme_read drv tick reg_addr len addr).2
      = [I2cEv.i2c_cmd_link_create,
          I2cEv.call I2cCmd.i2c_master_start ESP_OK,
          I2cEv.call (I2cCmd.i2c_master_write_byte ((addr <<< 1) ||| 0) 1) ESP_OK,
          I2cEv.call (I2cCmd.i2c_master_write_byte reg_addr 1) ESP_OK,
          I2cEv.call I2cCmd.i2c_master_start ESP_OK,
          I2cEv.call (I2cCmd.i2c_master_write_byte ((addr <<< 1) ||| 1) 1) ESP_OK]
        ++ (if len > 1
            then [I2cEv.call (I2cCmd.i2c_master_read 0 (len - 1) I2C_MASTER_ACK) ESP_OK]
            else [])
        ++ [I2cEv.call (I2cCmd.i2c_master_read_byte ((len : Int) - 1) I2C_MASTER_NACK) ESP_OK,
          I2cEv.call I2cCmd.i2c_master_stop ESP_OK,
          I2cEv.call (I2cCmd.i2c_master_cmd_begin I2C_PORT (I2C_WAIT_MS / tick)) ESP_OK,
          I2cEv.i2c_cmd_link_delete] ∧
    ((primitives (bme_read drv tick reg_addr len addr).2).map
        (fun p => p.1.bytes_read)).sum = len ∧
    (len = 1 → ∀ (offset : Int) (n ack : Nat) (e : Int),
      I2cEv.call (I2cCmd.i2c_master_read offset n ack) e
        ∉ (bme_read drv tick reg_addr len addr).2) := by
  have hw := (addr_byte addr 0 haddr (by decide))
  have hr := (addr_byte addr 1 haddr (by decide))
  rw [bme_read_ok_trace drv tick reg_addr len addr hok]
  simp only [bme_read_cmds, I2C_MASTER_WRITE, I2C_MASTER_READ, hw.1, hw.2, hr.1, hr.2]
  by_cases h1 : len > 1
  · refine ⟨by simp [h1]; omega, ?_, fun h => by omega⟩
    simp [h1, primitives, I2cCmd.bytes_read]
    omega
  · have hl : len = 1 := by omega
    subst hl
    refine ⟨by simp; omega, by simp [primitives, I2cCmd.bytes_read], fun _ => ?_⟩
    intro offset n ack e
    simp

theorem C10_bme_read_command_sequence_witness :
    (bme_read drv_ok 10 208 1 118).2
      = [I2cEv.i2c_cmd_link_create,
          I2cEv.call I2cCmd.i2c_master_start ESP_OK,
          I2cEv.call (I2cCmd.i2c_master_write_byte ((118 <<< 1) ||| 0) 1) ESP_OK,
          I2cEv.call (I2cCmd.i2c_master_write_byte 208 1) ESP_OK,
          I2cEv.call I2cCmd.i2c_master_start ESP_OK,
          I2cEv.call (I2cCmd.i2c_master_write_byte ((118 <<< 1) ||| 1) 1) ESP_OK]
        ++ (if 1 > 1
            then [I2cEv.call (I2cCmd.i2c_master_read 0 (1 - 1) I2C_MASTER_ACK) ESP_OK]
            else [])
        ++ [I2cEv.call (I2cCmd.i2c_master_read_byte (((1 : Nat) : Int) - 1) I2C_MASTER_NACK)
            ESP_OK,
          I2cEv.call I2cCmd.i2c_master_stop ESP_OK,
          I2cEv.call (I2cCmd.i2c_master_cmd_begin I2C_PORT (I2C_WAIT_MS / 10)) ESP_OK,
          I2cEv.i2c_cmd_link_delete] ∧
    ((primitives (bme_read drv_ok 10 208 1 118).2).map (fun p => p.1.bytes_read)).sum = 1 ∧
    (1 = 1 → ∀ (offset : Int) (n ack : Nat) (e : Int),
      I2cEv.call (I2cCmd.i2c_master_read offset n ack) e ∉ (bme_read drv_ok 10 208 1 118).2) :=
  C10_bme_read_command_sequence drv_ok 10 208 1 118 (by decide) (by decide) (by decide)

/-! ## Sensor task -/

theorem http_send_returns_pending (s : Relay) (data : List Nat) (n : Nat)
    (h : (http_send s data n).map Prod.fst = some HTTP_DATA_PENDING) :
    http_send s data n = some (HTTP_DATA_PENDING, s) := by
  by_cases hf : s.http_data_flag = HTTP_DATA_PENDING
  · exact http_send_pending s data n hf
  · simp only [http_send, hf, if_false] at h
    cases hm : memcpy s.field data n with
    | none => simp [hm] at h
    | some f => simp [hm] at h

theorem submit_loop_all_rejected (env : Nat → Relay → Relay) (data : List Nat) (n i : Nat)
    (s : Relay)
    (hrej : ∀ j, j < n →
      (http_send (relay_after env i s j) data (strlen data)).map Prod.fst
        = some HTTP_DATA_PENDING) :
    submit_loop env data n i s = some (i + n, relay_after env i s n, rejected_attempts data n) := by
  induction n generalizing i s with
  | zero => simp [submit_loop, relay_after, rejected_attempts]
  | succ n ih =>
    have h0 := http_send_returns_pending _ _ _ (hrej 0 (Nat.succ_pos n))
    simp only [relay_after] at h0
    have ih1 := ih (i + 1) (env i s) (fun j hj => by
      have := hrej (j + 1) (Nat.succ_lt_succ hj)
      simpa [relay_after] using this)
    simp only [submit_loop, h0, ih1, relay_after, rejected_attempts, to_uint32,
      BME_HTTP_SEND_RETRY_WAIT_MS]
    simp
    omega

theorem submit_loop_accepted (env : Nat → Relay → Relay) (data : List Nat) (r n i : Nat)
    (s s1 : Relay) (hr : r < n)
    (hrej : ∀ j, j < r →
      (http_send (relay_after env i s j) data (strlen data)).map Prod.fst
        = some HTTP_DATA_PENDING)
    (hacc : http_send (relay_after env i s r) data (strlen data) = some (HTTP_DATA_OK, s1)) :
    submit_loop env data n i s
      = some (i + r, s1, rejected_attempts data r
          ++ [BmeEv.http_send data (strlen data) HTTP_DATA_OK]) := by
  induction r generalizing n i s with
  | zero =>
    obtain ⟨m, rfl⟩ : ∃ m, n = m + 1 := ⟨n - 1, by omega⟩
    simp only [relay_after] at hacc
    simp [submit_loop, hacc, rejected_attempts]
  | succ r ih =>
    obtain ⟨m, rfl⟩ : ∃ m, n = m + 1 := ⟨n - 1, by omega⟩
    have h0 := http_send_returns_pending _ _ _ (hrej 0 (Nat.succ_pos r))
    simp only [relay_after] at h0
    have ih1 := ih m (i + 1) (env i s) (by omega) (fun j hj => by
      have := hrej (j + 1) (Nat.succ_lt_succ hj)
      simpa [relay_after] using this) (by simpa [relay_after] using hacc)
    simp only [submit_loop, h0, ih1, rejected_attempts, to_uint32, BME_HTTP_SEND_RETRY_WAIT_MS]
    simp
    omega

theorem rejected_attempts_sends (data : List Nat) (n : Nat) (t : List BmeEv) :
    ((rejected_attempts data n ++ t).filter BmeEv.isSend).length
      = n + (t.filter BmeEv.isSend).length := by
  induction n with
  | zero => simp [rejected_attempts]
  | succ n ih =>
    simp only [rejected_attempts, List.cons_append, List.filter_cons, BmeEv.isSend, if_true,
      Bool.false_eq_true, if_false, List.length_cons, ih]
    omega

theorem rejected_attempts_waits (data : List Nat) (n : Nat) (t : List BmeEv) :
    (rejected_attempts data n ++ t).count (BmeEv.delay_us 100000)
      = n + t.count (BmeEv.delay_us 100000) := by
  induction n with
  | zero => simp [rejected_attempts]
  | succ n ih =>
    simp only [rejected_attempts, List.cons_append]
    rw [List.count_cons_of_ne (by simp), List.count_cons_self, ih]
    omega

theorem cycle_delay_us_retries (i : Nat) (hi : i ≤ BME_HTTP_SEND_RETRIES) :
    cycle_delay_us BME_SAMPLING_PERIOD_MS BME_HTTP_SEND_RETRY_WAIT_MS (i : Int)
      = some ((10000 - i * 100) * 1000) := by
  simp only [BME_HTTP_SEND_RETRIES] at hi
  interval_cases i <;> decide

/-- C7: one sampling cycle of `bme_task` whose sensor calls succeed.  For `1 ≤ k ≤
BME_HTTP_SEND_RETRIES`: if `http_send` returns `HTTP_DATA_PENDING` on the first `k - 1`
attempts and `HTTP_DATA_OK` on the `k`-th, the cycle makes exactly `k` submission attempts,
waits 100 ms (100000 microseconds) exactly `k - 1` times, one wait after each rejected
attempt, and ends with a delay of `(10000 - (k-1)*100)` ms before the next cycle.  If all 5
attempts are rejected, exactly 5 attempts are made, none is accepted (the reading is dropped,
the relay being changed by the other tasks only), the cycle ends with a delay of 9500 ms and
the loop goes on. -/
theorem C7_bounded_retry_and_pacing (env : Nat → Relay → Relay) (data : List Nat) (s : Relay)
    (k : Nat) (hk1 : 1 ≤ k) (hk5 : k ≤ BME_HTTP_SEND_RETRIES) :
    (∀ s1 : Relay,
      (∀ j, j < k - 1 →
        (http_send (relay_after env 0 s j) data (strlen data)).map Prod.fst
          = some HTTP_DATA_PENDING) →
      http_send (relay_after env 0 s (k - 1)) data (strlen data) = some (HTTP_DATA_OK, s1) →
      ∃ tr : List BmeEv,
        bme_task_cycle env BME280_OK BME280_OK data s = some (true, s1, tr) ∧
        tr = cycle_head data ++ rejected_attempts data (k - 1)
          ++ [BmeEv.http_send data (strlen data) HTTP_DATA_OK, BmeEv.printf,
              BmeEv.delay_us ((10000 - (k - 1) * 100) * 1000)] ∧
        (tr.filter BmeEv.isSend).length = k ∧
        tr.count (BmeEv.delay_us 100000) = k - 1) ∧
    ((∀ j, j < BME_HTTP_SEND_RETRIES →
        (http_send (relay_after env 0 s j) data (strlen data)).map Prod.fst
          = some HTTP_DATA_PENDING) →
      ∃ tr : List BmeEv,
        bme_task_cycle env BME280_OK BME280_OK data s
          = some (true, relay_after env 0 s BME_HTTP_SEND_RETRIES, tr) ∧
        tr = cycle_head data ++ rejected_attempts data 5
          ++ [BmeEv.printf, BmeEv.delay_us 9500000] ∧
        (tr.filter BmeEv.isSend).length = 5 ∧
        BmeEv.http_send data (strlen data) HTTP_DATA_OK ∉ tr) := by
  refine ⟨fun s1 hrej hacc => ?_, fun hrej => ?_⟩
  · have hloop := submit_loop_accepted env data (k - 1) BME_HTTP_SEND_RETRIES 0 s s1
      (by omega) hrej hacc
    have hd := cycle_delay_us_retries (k - 1) (by omega)
    refine ⟨_, ?_, rfl, ?_, ?_⟩
    · simp only [bme_task_cycle, hloop, Nat.zero_add, hd, cycle_head]
      simp
    · rw [List.append_assoc, List.filter_append, List.length_append, rejected_attempts_sends]
      simp [cycle_head, BmeEv.isSend]
      omega
    · rw [List.append_assoc, List.count_append, rejected_attempts_waits]
      have h1 : (10000 - (k - 1) * 100) * 1000 ≠ 100000 := by
        simp only [BME_HTTP_SEND_RETRIES] at hk5
        omega
      simp [cycle_head, List.count_cons, h1]
  · have hloop := submit_loop_all_rejected env data BME_HTTP_SEND_RETRIES 0 s hrej
    have hd := cycle_delay_us_retries BME_HTTP_SEND_RETRIES (le_refl _)
    refine ⟨_, ?_, rfl, ?_, ?_⟩
    · simp only [bme_task_cycle, hloop, Nat.zero_add, hd, cycle_head]
      simp [BME_HTTP_SEND_RETRIES]
    · rw [List.append_assoc, List.filter_append, List.length_append, rejected_attempts_sends]
      simp [cycle_head, BmeEv.isSend]
    · simp [cycle_head, rejected_attempts]

/-- The scenario of the specification, `k = 3`: the relay is occupied at the first two
attempts and a finished delivery clears it during the second wait; the cycle ends with a
delay of 9800 ms. -/
theorem C7_bounded_retry_and_pacing_witness :
    ∃ tr : List BmeEv,
      bme_task_cycle (env_clear_at 1) BME280_OK BME280_OK [115, 61, 49, 0]
          ⟨HTTP_DATA_PENDING, [1, 2, 3, 4], 2⟩
        = some (true, ⟨HTTP_DATA_PENDING, [115, 61, 49, 4], 3⟩, tr) ∧
      tr = cycle_head [115, 61, 49, 0] ++ rejected_attempts [115, 61, 49, 0] (3 - 1)
        ++ [BmeEv.http_send [115, 61, 49, 0] (strlen [115, 61, 49, 0]) HTTP_DATA_OK,
            BmeEv.printf, BmeEv.delay_us ((10000 - (3 - 1) * 100) * 1000)] ∧
      (tr.filter BmeEv.isSend).length = 3 ∧
      tr.count (BmeEv.delay_us 100000) = 3 - 1 :=
  (C7_bounded_retry_and_pacing (env_clear_at 1) [115, 61, 49, 0]
    ⟨HTTP_DATA_PENDING, [1, 2, 3, 4], 2⟩ 3 (by decide) (by decide)).1
    ⟨HTTP_DATA_PENDING, [115, 61, 49, 4], 3⟩ (by decide) (by decide)

/-! ## Payload format -/

theorem of_digits_append (l : List Nat) (d : Nat) :
    of_digits (l ++ [d]) = 10 * of_digits l + d := by
  simp [of_digits, List.foldl_append]

theorem dec_digits_spec (f n : Nat) (h : n < f) :
    dec_digits f n ≠ [] ∧ (∀ d ∈ dec_digits f n, d < 10) ∧ of_digits (dec_digits f n) = n := by
  induction f generalizing n with
  | zero => omega
  | succ f ih =>
    by_cases h10 : n < 10
    · simp [dec_digits, h10, of_digits]
    · obtain ⟨-, i2, i3⟩ := ih (n / 10) (by omega)
      simp only [dec_digits, h10, if_false]
      refine ⟨by simp, ?_, ?_⟩
      · intro d hd
        rcases List.mem_append.mp hd with hd | hd
        · exact i2 d hd
        · simp only [List.mem_singleton] at hd
          omega
      · rw [of_digits_append, i3]
        omega

/-- The shape of a `%0.2lf` conversion: sign, at least one integer digit, a point and exactly
two fraction digits, which together denote the value rounded to hundredths. -/
theorem fmt_f2_shape (x : binary64) :
    ∃ (ip : List Nat) (d1 d2 : Nat),
      fmt_f2 x = (if x.neg then ['-'] else []) ++ ip.map digit_char
        ++ ['.', digit_char d1, digit_char d2] ∧
      ip ≠ [] ∧ (∀ d ∈ ip, d < 10) ∧ d1 < 10 ∧ d2 < 10 ∧
      of_digits ip * 100 + d1 * 10 + d2 = round_half_even (x.num * 100) x.den := by
  obtain ⟨h1, h2, h3⟩ := dec_digits_spec (round_half_even (x.num * 100) x.den / 100 + 1)
    (round_half_even (x.num * 100) x.den / 100) (Nat.lt_succ_self _)
  refine ⟨_, _, _, rfl, h1, h2, ?_, ?_, ?_⟩
  · omega
  · omega
  · rw [h3]
    omega

set_option maxRecDepth 100000 in
theorem bme_payload_eq (d : bme280_data) :
    bme_payload d
      = "sensor,location=home temperature=".toList
        ++ (fmt_f2 d.temperature
        ++ (",pressure=".toList
        ++ (fmt_f2 (binary64.mul (decimal false 1 2) d.pressure)
        ++ (",humidity=".toList ++ fmt_f2 d.humidity)))) := by
  simp [bme_payload, payload_format, sprintf]

set_option maxRecDepth 100000 in
/-- C8: the `sprintf` call of `bme_task`, applied to the reading with temperature 23.45,
pressure 101325 Pa (scaled by the constant 0.01 in the call, 1013.25 hPa) and humidity 55.10,
writes exactly `sensor,location=home temperature=23.45,pressure=1013.25,humidity=55.10`.  For
every reading the payload is the prefix `sensor,location=home temperature=`, the temperature,
`,pressure=`, 0.01 times the pressure, `,humidity=` and the humidity, where each value is
written as an optional minus sign, its integer digits, a point and exactly two fraction
digits, which denote the value rounded to hundredths. -/
theorem C8_payload_format :
    bme_payload ⟨decimal false 2345 2, decimal false 101325 0, decimal false 5510 2⟩
      = "sensor,location=home temperature=23.45,pressure=1013.25,humidity=55.10".toList ∧
    (∀ d : bme280_data,
      bme_payload d
        = "sensor,location=home temperature=".toList
          ++ (fmt_f2 d.temperature
          ++ (",pressure=".toList
          ++ (fmt_f2 (binary64.mul (decimal false 1 2) d.pressure)
          ++ (",humidity=".toList ++ fmt_f2 d.humidity))))) ∧
    (∀ x : binary64, ∃ (ip : List Nat) (d1 d2 : Nat),
      fmt_f2 x = (if x.neg then ['-'] else []) ++ ip.map digit_char
        ++ ['.', digit_char d1, digit_char d2] ∧
      ip ≠ [] ∧ (∀ d ∈ ip, d < 10) ∧ d1 < 10 ∧ d2 < 10 ∧
      of_digits ip * 100 + d1 * 10 + d2 = round_half_even (x.num * 100) x.den) :=
  ⟨by decide, bme_payload_eq, fmt_f2_shape⟩

/-! ## Cycle pacing -/

theorem int_fits_iff (x : Int) : int_fits x = true ↔ -2147483648 ≤ x ∧ x ≤ 2147483647 := by
  simp [int_fits, INT_MIN, INT_MAX]

theorem cycle_delay_us_defined (P W i : Int) (hP : int_fits P = true) (hW : int_fits W = true)
    (hi : int_fits i = true) (hm : int_fits (i * W) = true)
    (hd : int_fits (P - i * W) = true) (hu : int_fits ((P - i * W) * 1000) = true) :
    cycle_delay_us P W i = some (to_uint32 ((P - i * W) * 1000)) := by
  simp [cycle_delay_us, hP, hW, hi, hm, hd, hu]

/-- The loop counter on leaving the submission loop lies between its value on entry and that
value plus the iterations left. -/
theorem submit_loop_counter (env : Nat → Relay → Relay) (data : List Nat) (n i : Nat)
    (s s1 : Relay) (j : Nat) (t : List BmeEv)
    (h : submit_loop env data n i s = some (j, s1, t)) : i ≤ j ∧ j ≤ i + n := by
  induction n generalizing i s j s1 t with
  | zero =>
    simp only [submit_loop, Option.some.injEq, Prod.mk.injEq] at h
    omega
  | succ n ih =>
    simp only [submit_loop] at h
    cases hs : http_send s data (strlen data) with
    | none => simp [hs] at h
    | some r =>
      obtain ⟨code, s2⟩ := r
      cases code with
      | HTTP_DATA_OK =>
        simp only [hs, Option.some.injEq, Prod.mk.injEq] at h
        omega
      | HTTP_DATA_PENDING =>
        simp only [hs] at h
        cases hl : submit_loop env data n (i + 1) (env i s2) with
        | none => simp [hl] at h
        | some q =>
          obtain ⟨j1, s3, t1⟩ := q
          simp only [hl, Option.some.injEq, Prod.mk.injEq] at h
          have := ih (i + 1) (env i s2) s3 j1 t1 hl
          omega

/-- C11 as stated fails.  Taken as parameters of the pacing expression, `P = 100`, `W = 100`
and `i = 2` waits give `i*W > P`; no intermediate value overflows, the expression is the
negative `int` -100000, and `bme.delay_us` receives it as the `uint32_t` 4294867296: the delay
requested from `bme_delay` is 4294867 ms (429486 ticks of 10 ms), not 0. -/
theorem C11_pacing_delay_is_not_clamped :
    ¬ (cycle_delay_us 100 100 2 = some 0) ∧
    cycle_delay_us 100 100 2 = some 4294867296 ∧
    bme_delay 10 4294867296 = 429486 := by
  decide

/-- C11, amended: for every sampling period `P`, retry wait `W` and number `i` of waits, taken
as `int` parameters of the pacing expression `(P - i*W) * 1000` such that `i*W`, `P - i*W` and
`(P - i*W) * 1000` are representable as `int`, the expression is defined and: when `i*W ≤ P`
the argument given to `bme_delay` is `(P - i*W) * 1000` microseconds, a delay of `P - i*W`
milliseconds, not negative; when `i*W > P` there is no clamp, the negative `int` is converted
to `uint32_t`, and the argument is `2^32 + (P - i*W) * 1000` microseconds, which is at least
`2^31` and so never 0.  With the compiled-in constants (`P = 10000`, `W = 100`, at most 5 waits)
`i*W ≤ P` always holds, the expression is defined, the argument is `(10000 - i*100) * 1000`
without wrap-around, it fits in `uint32_t`, and the delay lies between 9500 and 10000 ms;
every cycle of `bme_task` that goes on ends with such a delay. -/
theorem C11_pacing_delay_in_range (P W : Int) (i : Nat) (hP : int_fits P = true)
    (hW : int_fits W = true) (hi : int_fits (i : Int) = true)
    (hm : int_fits ((i : Int) * W) = true) (hd : int_fits (P - (i : Int) * W) = true)
    (hu : int_fits ((P - (i : Int) * W) * 1000) = true) :
    ((i : Int) * W ≤ P →
      cycle_delay_us P W (i : Int) = some ((P - (i : Int) * W) * 1000).toNat ∧
      ((((P - (i : Int) * W) * 1000).toNat / 1000 : Nat) : Int) = P - (i : Int) * W ∧
      ∀ tick : Nat,
        bme_delay tick ((P - (i : Int) * W) * 1000).toNat = (P - (i : Int) * W).toNat / tick) ∧
    (P < (i : Int) * W →
      cycle_delay_us P W (i : Int)
        = some (4294967296 + (P - (i : Int) * W) * 1000).toNat ∧
      (4294967296 + (P - (i : Int) * W) * 1000).toNat ≠ 0 ∧
      2147483648 ≤ (4294967296 + (P - (i : Int) * W) * 1000).toNat) ∧
    (∀ n : Nat, n ≤ BME_HTTP_SEND_RETRIES →
      (n : Int) * BME_HTTP_SEND_RETRY_WAIT_MS ≤ BME_SAMPLING_PERIOD_MS ∧
      cycle_delay_us BME_SAMPLING_PERIOD_MS BME_HTTP_SEND_RETRY_WAIT_MS (n : Int)
        = some ((10000 - n * 100) * 1000) ∧
      9500 * 1000 ≤ (10000 - n * 100) * 1000 ∧
      (10000 - n * 100) * 1000 ≤ 10000 * 1000 ∧
      (10000 - n * 100) * 1000 < 4294967296) ∧
    (∀ (env : Nat → Relay → Relay) (mode_ret data_ret : Int) (data : List Nat) (s s1 : Relay)
        (tr : List BmeEv),
      bme_task_cycle env mode_ret data_ret data s = some (true, s1, tr) →
      ∃ d : Nat, tr.getLast? = some (BmeEv.delay_us d) ∧ 9500 * 1000 ≤ d ∧ d ≤ 10000 * 1000) := by
  have hdef := cycle_delay_us_defined P W i hP hW hi hm hd hu
  have hu2 := (int_fits_iff _).mp hu
  have hd2 := (int_fits_iff _).mp hd
  refine ⟨fun hle => ?_, fun hlt => ?_, ?_, ?_⟩
  · have h0 : 0 ≤ (P - (i : Int) * W) * 1000 := by omega
    have hconv : to_uint32 ((P - (i : Int) * W) * 1000) = ((P - (i : Int) * W) * 1000).toNat := by
      unfold to_uint32
      rw [Int.emod_eq_of_lt h0 (by omega)]
    have hms : ((P - (i : Int) * W) * 1000).toNat / 1000 = (P - (i : Int) * W).toNat := by
      omega
    refine ⟨by rw [hdef, hconv], by omega, fun tick => by rw [bme_delay, hms]⟩
  · have hneg : (P - (i : Int) * W) * 1000 < 0 := by omega
    have hconv : to_uint32 ((P - (i : Int) * W) * 1000)
        = (4294967296 + (P - (i : Int) * W) * 1000).toNat := by
      unfold to_uint32
      congr 1
      omega
    refine ⟨by rw [hdef, hconv], by omega, by omega⟩
  · intro n hn
    have hdn := cycle_delay_us_retries n hn
    simp only [BME_HTTP_SEND_RETRIES] at hn
    simp only [BME_HTTP_SEND_RETRY_WAIT_MS, BME_SAMPLING_PERIOD_MS] at hdn ⊢
    refine ⟨by omega, hdn, by omega, by omega, by omega⟩
  · intro env mode_ret data_ret data s s1 tr hrun
    simp only [bme_task_cycle] at hrun
    split_ifs at hrun with hm1 hd1
    · simp at hrun
    · simp at hrun
    · cases hl : submit_loop env data BME_HTTP_SEND_RETRIES 0 s with
      | none => simp [hl] at hrun
      | some q =>
        obtain ⟨j, s2, t⟩ := q
        have hj := (submit_loop_counter env data _ 0 s s2 j t hl).2
        rw [Nat.zero_add] at hj
        have hdj := cycle_delay_us_retries j hj
        simp only [hl, hdj, Option.some.injEq, Prod.mk.injEq, true_and] at hrun
        obtain ⟨-, htr⟩ := hrun
        simp only [BME_HTTP_SEND_RETRIES] at hj
        refine ⟨(10000 - j * 100) * 1000, ?_, by omega, by omega⟩
        have hsplit : tr = ([BmeEv.bme280_set_sensor_mode mode_ret, BmeEv.delay_us 40000,
            BmeEv.bme280_get_sensor_data data_ret, BmeEv.sprintf data] ++ t ++ [BmeEv.printf])
            ++ [BmeEv.delay_us ((10000 - j * 100) * 1000)] := by
          rw [← htr]
          simp
        rw [hsplit, List.getLast?_concat]

/-- The scenario of two waits with the compiled-in constants: the argument is 9800000
microseconds, a delay of 9800 ms. -/
theorem C11_pacing_delay_in_range_witness :
    cycle_delay_us 10000 100 ((2 : Nat) : Int)
      = some ((10000 - ((2 : Nat) : Int) * 100) * 1000).toNat ∧
    (((((10000 : Int) - ((2 : Nat) : Int) * 100) * 1000).toNat / 1000 : Nat) : Int)
      = 10000 - ((2 : Nat) : Int) * 100 ∧
    cycle_delay_us 10000 100 ((2 : Nat) : Int) = some 9800000 :=
  have h := (C11_pacing_delay_in_range 10000 100 2 (by decide) (by decide) (by decide)
    (by decide) (by decide) (by decide)).1 (by decide)
  ⟨h.1, h.2.1, by decide⟩

/-! ## Interleavings of submission and delivery -/

/-- The invariant of the relay: the buffer keeps its size, and the accepted payloads are the
POSTed ones followed by the one in flight, if any. -/
theorem relay_step_invariant (tick : Nat) (r : RelayRun) (st : RelayStep)
    (hlen : r.relay.field.length = HTTP_FIELD_SIZE)
    (hinv : r.accepted = r.posts ++ in_flight r.relay) (hfit : st.fits = true) :
    ∃ r1 : RelayRun, relay_step tick r st = some r1 ∧
      r1.relay.field.length = HTTP_FIELD_SIZE ∧
      r1.accepted = r1.posts ++ in_flight r1.relay := by
  cases st with
  | send data data_len =>
    simp only [RelayStep.fits, decide_eq_true_eq] at hfit
    by_cases hp : r.relay.http_data_flag = HTTP_DATA_PENDING
    · refine ⟨r, ?_, hlen, hinv⟩
      simp [relay_step, http_send_pending r.relay data data_len hp]
    · have hok : r.relay.http_data_flag = HTTP_DATA_OK := by
        cases hf : r.relay.http_data_flag with
        | HTTP_DATA_OK => rfl
        | HTTP_DATA_PENDING => exact absurd hf hp
      have hsend := http_send_empty r.relay data data_len hok hfit.1 (by rw [hlen]; exact hfit.2)
      refine ⟨{ r with
          relay := { http_data_flag := HTTP_DATA_PENDING,
                     field := data.take data_len ++ r.relay.field.drop data_len,
                     field_len := data_len },
          accepted := r.accepted ++ [data.take data_len] },
        by simp only [relay_step, hsend], ?_, ?_⟩
      · simp only [List.length_append, List.length_take, List.length_drop, hlen]
        have := hfit.1
        have := hfit.2
        omega
      · have hnone : in_flight r.relay = [] := by simp [in_flight, hok]
        rw [hnone, List.append_nil] at hinv
        simp only [in_flight, if_true, hinv]
        rw [List.take_append_of_le_length (by simp [hfit.1])]
        simp
  | deliver p c =>
    by_cases hp : r.relay.http_data_flag = HTTP_DATA_PENDING
    · obtain ⟨h1, h2, -⟩ := http_task_delivers p c tick r.relay hp
      refine ⟨_, rfl, ?_, ?_⟩
      · simp only [h1]
        exact hlen
      · simp only [h1, h2, hinv, in_flight, hp, if_true]
        simp
    · have hok : r.relay.http_data_flag = HTTP_DATA_OK := by
        cases hf : r.relay.http_data_flag with
        | HTTP_DATA_OK => rfl
        | HTTP_DATA_PENDING => exact absurd hf hp
      refine ⟨_, rfl, ?_, ?_⟩
      · rw [http_task_empty p c tick r.relay hok]
        exact hlen
      · rw [http_task_empty p c tick r.relay hok]
        simp only [posted, List.append_nil]
        exact hinv

theorem relay_run_invariant (tick : Nat) (steps : List RelayStep) (r : RelayRun)
    (hlen : r.relay.field.length = HTTP_FIELD_SIZE)
    (hinv : r.accepted = r.posts ++ in_flight r.relay)
    (hfit : ∀ st ∈ steps, st.fits = true) :
    ∃ r1 : RelayRun, relay_run tick r steps = some r1 ∧
      r1.relay.field.length = HTTP_FIELD_SIZE ∧
      r1.accepted = r1.posts ++ in_flight r1.relay := by
  induction steps generalizing r with
  | nil => exact ⟨r, rfl, hlen, hinv⟩
  | cons st rest ih =>
    obtain ⟨r1, h1, h2, h3⟩ := relay_step_invariant tick r st hlen hinv
      (hfit st (List.mem_cons_self _ _))
    obtain ⟨r2, h4, h5, h6⟩ := ih r1 h2 h3 (fun x hx => hfit x (List.mem_cons_of_mem _ hx))
    exact ⟨r2, by simp only [relay_run, h1, h4], h5, h6⟩

/-- C12: for every finite interleaving of well-formed `http_send` calls and iterations of the
delivery loop of `http_task`, each an atomic step, from an empty slot, and at every point of
it (after the first `n` steps): the run is defined; the payloads POSTed so far are exactly the
payloads accepted so far, in the same order, followed in the accepted list by the one payload
still in flight when the slot is occupied; so at most one payload is in flight, every POSTed
payload is an accepted one at the same position (none is POSTed twice, none that was rejected
is POSTed), and while the slot is occupied it holds the last accepted payload (it was not
overwritten). -/
theorem C12_delivery_preserves_acceptance_order (tick : Nat) (s0 : Relay)
    (steps : List RelayStep) (h0 : s0.http_data_flag = HTTP_DATA_OK)
    (hlen : s0.field.length = HTTP_FIELD_SIZE) (hfit : ∀ st ∈ steps, st.fits = true) (n : Nat) :
    ∃ r : RelayRun, relay_run tick ⟨s0, [], []⟩ (steps.take n) = some r ∧
      r.accepted = r.posts ++ in_flight r.relay ∧
      r.posts <+: r.accepted ∧
      r.accepted.length ≤ r.posts.length + 1 ∧
      (∀ b ∈ r.posts, b ∈ r.accepted) ∧
      (r.relay.http_data_flag = HTTP_DATA_OK → r.posts = r.accepted) ∧
      (r.relay.http_data_flag = HTTP_DATA_PENDING →
        r.accepted = r.posts ++ [r.relay.field.take r.relay.field_len] ∧
        r.accepted.getLast? = some (r.relay.field.take r.relay.field_len)) := by
  obtain ⟨r, h1, -, h3⟩ := relay_run_invariant tick (steps.take n) ⟨s0, [], []⟩ hlen
    (by simp [in_flight, h0]) (fun st hst => hfit st (List.mem_of_mem_take hst))
  refine ⟨r, h1, h3, ⟨_, h3.symm⟩, ?_, ?_, ?_, ?_⟩
  · rw [h3, List.length_append]
    simp only [in_flight]
    split_ifs <;> simp
  · intro b hb
    rw [h3]
    exact List.mem_append_left _ hb
  · intro hok
    rw [h3]
    simp [in_flight, hok]
  · intro hp
    have h4 : r.accepted = r.posts ++ [r.relay.field.take r.relay.field_len] := by
      rw [h3]
      simp [in_flight, hp]
    exact ⟨h4, by rw [h4, List.getLast?_concat]⟩

set_option maxRecDepth 100000 in
/-- An interleaving of three submissions and two deliveries from the initial relay: the second
submission finds the slot occupied and is rejected, the first delivery fails; after four steps
the second accepted payload is in flight, after all five both accepted payloads have been
POSTed, in order. -/
theorem C12_delivery_preserves_acceptance_order_witness :
    (∃ r : RelayRun,
      relay_run 10 ⟨Relay.initial, [], []⟩
          ([RelayStep.send [1, 2, 3] 3, RelayStep.send [9, 9] 2, RelayStep.deliver (-1) 0,
            RelayStep.send [4, 5] 2, RelayStep.deliver 0 0].take 4) = some r ∧
        r.accepted = r.posts ++ in_flight r.relay ∧
        r.posts <+: r.accepted ∧
        r.accepted.length ≤ r.posts.length + 1 ∧
        (∀ b ∈ r.posts, b ∈ r.accepted) ∧
        (r.relay.http_data_flag = HTTP_DATA_OK → r.posts = r.accepted) ∧
        (r.relay.http_data_flag = HTTP_DATA_PENDING →
          r.accepted = r.posts ++ [r.relay.field.take r.relay.field_len] ∧
          r.accepted.getLast? = some (r.relay.field.take r.relay.field_len))) ∧
    (relay_run 10 ⟨Relay.initial, [], []⟩
        ([RelayStep.send [1, 2, 3] 3, RelayStep.send [9, 9] 2, RelayStep.deliver (-1) 0,
          RelayStep.send [4, 5] 2, RelayStep.deliver 0 0].take 4)).map
        (fun r => (r.accepted, r.posts))
      = some ([[1, 2, 3], [4, 5]], [[1, 2, 3]]) ∧
    (relay_run 10 ⟨Relay.initial, [], []⟩
        [RelayStep.send [1, 2, 3] 3, RelayStep.send [9, 9] 2, RelayStep.deliver (-1) 0,
          RelayStep.send [4, 5] 2, RelayStep.deliver 0 0]).map
        (fun r => (r.accepted, r.posts))
      = some ([[1, 2, 3], [4, 5]], [[1, 2, 3], [4, 5]]) :=
  ⟨C12_delivery_preserves_acceptance_order 10 Relay.initial
      [RelayStep.send [1, 2, 3] 3, RelayStep.send [9, 9] 2, RelayStep.deliver (-1) 0,
        RelayStep.send [4, 5] 2, RelayStep.deliver 0 0]
      rfl (List.length_replicate _ _) (by decide) 4,
    by decide, by decide⟩

end WeatherStation
